import Mathlib

/-!
# lab1: the simplified PNG container (`lab_png.c`) and the PNG finder (`findpng.c`)

A shallow embedding of the chunk codec of `src/lab_png.c` and of the directory scanner of
`src/findpng.c`, and theorems about them.

Modelling conventions.

* A byte (`U8`) is a `Fin 256`.  A `U32` is a natural number; every place where the C code
  produces one (`ntohl` of four bytes, the `int` to `U32` conversion of the IHDR fields)
  is written out explicitly.
* A `FILE *` opened for reading is a byte sequence together with a position.  `fread`
  hands out the bytes that are left, up to the requested amount, and advances the
  position by what it handed out; end of file is the only read failure.
* A `FILE *` opened for writing is the bytes written so far together with the number of
  bytes the device still accepts; `fwrite` is short once the device is full.
* A pointer that the code tests against `NULL` is an `Option`, and a stream handed to
  `get_chunk`, `write_chunk` or `fseek` is an open stream.
* The outcome of a `malloc` call is an argument of the function that makes the call:
  `true` when it returns a buffer, `false` when it returns `NULL`.  `get_chunk`,
  `get_png_chunks` and `calculate_chunk_crc` are the functions with every allocation
  succeeding; `get_chunk_alloc`, `get_png_chunks_alloc` and `calculate_chunk_crc_alloc`
  take the outcomes as arguments.
* Streams opened for writing are taken to be unbuffered: a write the device cannot take is
  short at once, not at a later flush.
-/

set_option maxRecDepth 8000

namespace Lab1

/-! ## Types and constants of `lab_png.h` -/

/-- Modelled from the spec: `U8` of `lab_png.h` (not under `src/`), an unsigned byte. -/
abbrev U8 := Fin 256

/-- Modelled from the spec: `PNG_SIG_SIZE` of `lab_png.h`, the 8-byte signature length
(`findpng.c` defines the same value). -/
def PNG_SIG_SIZE : Nat := 8

/-- Modelled from the spec: `CHUNK_LEN_SIZE` of `lab_png.h`, the 4-byte length field. -/
def CHUNK_LEN_SIZE : Nat := 4

/-- Modelled from the spec: `CHUNK_TYPE_SIZE` of `lab_png.h`, the 4-byte chunk type. -/
def CHUNK_TYPE_SIZE : Nat := 4

/-- Modelled from the spec: `CHUNK_CRC_SIZE` of `lab_png.h`, the 4-byte crc field. -/
def CHUNK_CRC_SIZE : Nat := 4

/-- Modelled from the spec: `DATA_IHDR_SIZE` of `lab_png.h`, the 13-byte IHDR payload. -/
def DATA_IHDR_SIZE : Nat := 13

/-- Modelled from the spec: `struct chunk` of `lab_png.h`:
`{ length: u32, type: [u8;4], data: owned bytes, crc: u32 }`.  `p_data` is the buffer the
pointer refers to; its size is independent of the `length` field. -/
structure chunk where
  length : Nat
  type : List U8
  p_data : List U8
  crc : Nat
  deriving DecidableEq, Repr

/-- Modelled from the spec: `struct data_IHDR` of `lab_png.h`: two `u32` and five `u8`. -/
structure data_IHDR where
  width : Nat
  height : Nat
  bit_depth : U8
  color_type : U8
  compression : U8
  filter : U8
  interlace : U8
  deriving DecidableEq, Repr

/-- Modelled from the spec: `struct simple_PNG` of `lab_png.h`: three chunk pointers, each
of which may be `NULL`. -/
structure simple_PNG where
  p_IHDR : Option chunk
  p_IDAT : Option chunk
  p_IEND : Option chunk
  deriving DecidableEq, Repr

/-- The values a well-formed `struct chunk` can hold: `length` and `crc` are `U32`, and
`type` is an array of exactly four bytes. -/
def chunk.WellTyped (c : chunk) : Prop :=
  c.length < 2 ^ 32 ∧ c.type.length = 4 ∧ c.crc < 2 ^ 32

instance (c : chunk) : Decidable c.WellTyped := by
  unfold chunk.WellTyped; infer_instance

/-! ## The C library, as far as the code uses it -/

/-- A stream opened for reading: the contents of the file and the position indicator. -/
structure FILE where
  data : List U8
  pos : Nat
  deriving DecidableEq, Repr

/-- The bytes between the position indicator and the end of the file. -/
def FILE.remaining (fp : FILE) : List U8 := fp.data.drop fp.pos

def SEEK_SET : Int := 0
def SEEK_CUR : Int := 1
def SEEK_END : Int := 2

/-- `fseek(fp, offset, whence)`: returns 0 and moves the position, or returns -1 and leaves
it where it was (unknown `whence`, or a resulting position before the start). -/
def fseek (fp : FILE) (offset : Int) (whence : Int) : Int × FILE :=
  let base : Option Int :=
    if whence = SEEK_SET then some 0
    else if whence = SEEK_CUR then some (fp.pos : Int)
    else if whence = SEEK_END then some (fp.data.length : Int)
    else none
  match base with
  | none => (-1, fp)
  | some b =>
    if b + offset < 0 then (-1, fp)
    else (0, { fp with pos := (b + offset).toNat })

/-- `fread(buf, size, nmemb, fp)`: the number of complete items read, the bytes stored into
`buf`, and the stream afterwards.  A short read still consumes the bytes it obtained. -/
def fread (size nmemb : Nat) (fp : FILE) : Nat × List U8 × FILE :=
  let got := fp.remaining.take (size * nmemb)
  (if size = 0 then 0 else got.length / size, got, { fp with pos := fp.pos + got.length })

/-- `ntohl` applied to a `U32` whose four bytes in memory are `b` (in file order): the
big-endian value of the bytes. -/
def ntohl (b : List U8) : Nat :=
  (b.getD 0 0).val * 2 ^ 24 + (b.getD 1 0).val * 2 ^ 16 + (b.getD 2 0).val * 2 ^ 8
    + (b.getD 3 0).val

/-- The four bytes in memory of `htonl(x)`: `x` in big-endian order. -/
def htonl (x : Nat) : List U8 :=
  [Fin.ofNat (x / 2 ^ 24), Fin.ofNat (x / 2 ^ 16), Fin.ofNat (x / 2 ^ 8), Fin.ofNat x]

/-- `memcmp(a, b, n) == 0`: the first `n` bytes of the two buffers agree. -/
def memcmp_eq (a b : List U8) (n : Nat) : Bool := a.take n == b.take n

/-- A stream opened for writing: the path it was opened on, the bytes written so far,
and the number of further bytes the device accepts. -/
structure OFILE where
  path : String
  out : List U8
  room : Nat
  deriving DecidableEq, Repr

/-- `fwrite(buf, size, nmemb, fp)`: the number of complete items written and the stream
afterwards.  The bytes that fit on the device are appended. -/
def fwrite (buf : List U8) (size nmemb : Nat) (fp : OFILE) : Nat × OFILE :=
  let got := min (size * nmemb) fp.room
  (if size = 0 then 0 else got / size,
   { fp with out := fp.out ++ buf.take got, room := fp.room - got })

/-- The file system seen by `write_PNG`: the files by path, the paths on which
`fopen(path, "wb")` succeeds, and the free space of the device. -/
structure Disk where
  files : String → Option (List U8)
  writable : String → Bool
  room : Nat

/-- `fopen(path, "wb")`: `NULL`, or a stream on the truncated (or newly created) file. -/
def fopen_wb (d : Disk) (path : String) : Option OFILE :=
  if d.writable path then some { path := path, out := [], room := d.room } else none

/-- `fclose` of a stream opened for writing: the file holds what was written. -/
def fclose_w (d : Disk) (fp : OFILE) : Disk :=
  { d with
    files := fun p => if p = fp.path then some fp.out else d.files p
    room := fp.room }

/-- `fopen(path, "rb")`: `NULL`, or a stream at the start of the file. -/
def fopen_rb (d : Disk) (path : String) : Option FILE :=
  (d.files path).map fun bytes => { data := bytes, pos := 0 }

/-! ## `lab_png.c` -/

/-- The PNG signature, `{0x89, 'P', 'N', 'G', 0x0D, 0x0A, 0x1A, 0x0A}`. -/
def png_signature : List U8 := [0x89, 0x50, 0x4E, 0x47, 0x0D, 0x0A, 0x1A, 0x0A]

/-- `is_png(buf, n)` (lab_png.c:9-13).  `n` is the number of bytes the caller says `buf`
holds. -/
def is_png (buf : List U8) (n : Nat) : Int :=
  if n < PNG_SIG_SIZE then 0
  else if memcmp_eq buf png_signature PNG_SIG_SIZE then 1 else 0

/-- The bytes of the string literal `"IHDR"`. -/
def IHDR_tag : List U8 := [0x49, 0x48, 0x44, 0x52]

/-- The `int` expression `(b0 << 24) | (b1 << 16) | (b2 << 8) | b3` converted to `U32`
(lab_png.c:30-31).  With `b0 >= 0x80` the `int` is negative on a 32-bit `int`; the
conversion to `U32` is the reduction modulo `2^32` of the same bit pattern. -/
def be_or (b0 b1 b2 b3 : U8) : Nat :=
  ((b0.val <<< 24) ||| (b1.val <<< 16) ||| (b2.val <<< 8) ||| b3.val) % 2 ^ 32

/-- `get_png_data_IHDR(out, fp, offset, whence)` (lab_png.c:16-40): the return value, the
record `out` points to afterwards, and the stream afterwards. -/
def get_png_data_IHDR (out : Option data_IHDR) (fp : FILE) (offset whence : Int) :
    Int × Option data_IHDR × FILE :=
  match out with
  | none => (0, none, fp)
  | some o =>
    let (rc, fp1) := fseek fp offset whence
    if rc ≠ 0 then (0, some o, fp1) else
    let (n1, lenb, fp2) := fread 4 1 fp1
    if n1 ≠ 1 then (0, some o, fp2) else
    let length := ntohl lenb
    let (n2, type, fp3) := fread 1 CHUNK_TYPE_SIZE fp2
    if n2 ≠ CHUNK_TYPE_SIZE then (0, some o, fp3) else
    if !(memcmp_eq type IHDR_tag CHUNK_TYPE_SIZE) || length ≠ DATA_IHDR_SIZE then
      (0, some o, fp3) else
    let (n3, buf, fp4) := fread 1 DATA_IHDR_SIZE fp3
    if n3 ≠ DATA_IHDR_SIZE then (0, some o, fp4) else
    let b := fun i => buf.getD i 0
    let o1 : data_IHDR :=
      { width := be_or (b 0) (b 1) (b 2) (b 3)
        height := be_or (b 4) (b 5) (b 6) (b 7)
        bit_depth := b 8
        color_type := b 9
        compression := b 10
        filter := b 11
        interlace := b 12 }
    let fp5 := (fseek fp4 CHUNK_CRC_SIZE SEEK_CUR).2
    (1, some o1, fp5)

/-- `get_chunk(fp)` (lab_png.c:43-66): the chunk returned (`none` for `NULL`) and the stream
afterwards.  `ok_chunk` is the outcome of `malloc(sizeof(struct chunk))` and `ok_data`
the outcome of `malloc(c->length)`; when the second one fails `fread` is not called, so
the stream stays right after the type. -/
def get_chunk_alloc (ok_chunk ok_data : Bool) (fp : FILE) : Option chunk × FILE :=
  if !ok_chunk then (none, fp) else
  let (n1, net_len, fp1) := fread 4 1 fp
  if n1 ≠ 1 then (none, fp1) else
  let length := ntohl net_len
  let (n2, type, fp2) := fread 1 CHUNK_TYPE_SIZE fp1
  if n2 ≠ CHUNK_TYPE_SIZE then (none, fp2) else
  if !ok_data then (none, fp2) else
  let (n3, p_data, fp3) := fread 1 length fp2
  if n3 ≠ length then (none, fp3) else
  let (n4, net_crc, fp4) := fread 4 1 fp3
  if n4 ≠ 1 then (none, fp4) else
  (some { length := length, type := type, p_data := p_data, crc := ntohl net_crc }, fp4)

/-- `get_chunk(fp)` with both allocations succeeding. -/
def get_chunk (fp : FILE) : Option chunk × FILE := get_chunk_alloc true true fp

/-- `get_png_chunks(out, fp, offset, whence)` (lab_png.c:69-78): the return value, the
container `out` points to afterwards, and the stream afterwards.  `m1`, `m2`, `m3` are the
outcomes of the two allocations of the first, second and third `get_chunk` call. -/
def get_png_chunks_alloc (m1 m2 m3 : Bool × Bool) (out : Option simple_PNG) (fp : FILE)
    (offset whence : Int) : Int × Option simple_PNG × FILE :=
  match out with
  | none => (0, none, fp)
  | some o =>
    let (rc, fp0) := fseek fp offset whence
    if rc ≠ 0 then (0, some o, fp0) else
    let (c1, fp1) := get_chunk_alloc m1.1 m1.2 fp0
    let (c2, fp2) := get_chunk_alloc m2.1 m2.2 fp1
    let (c3, fp3) := get_chunk_alloc m3.1 m3.2 fp2
    let o1 : simple_PNG := { p_IHDR := c1, p_IDAT := c2, p_IEND := c3 }
    if c1.isNone || c2.isNone || c3.isNone then (0, some o1, fp3) else (1, some o1, fp3)

/-- `get_png_chunks(out, fp, offset, whence)` with every allocation succeeding. -/
def get_png_chunks (out : Option simple_PNG) (fp : FILE) (offset whence : Int) :
    Int × Option simple_PNG × FILE :=
  get_png_chunks_alloc (true, true) (true, true) (true, true) out fp offset whence

/-- `mallocPNG()` (lab_png.c:81-85): a container with three `NULL` slots. -/
def mallocPNG : simple_PNG := { p_IHDR := none, p_IDAT := none, p_IEND := none }

/-- `write_chunk(fp, in)` (lab_png.c:120-132): the return value and the stream afterwards.
The results of the four `fwrite` calls are discarded, as in the source. -/
def write_chunk (fp : OFILE) (inp : Option chunk) : Int × OFILE :=
  match inp with
  | none => (0, fp)
  | some c =>
    let net_len := htonl c.length
    let net_crc := htonl c.crc
    let fp1 := (fwrite net_len 4 1 fp).2
    let fp2 := (fwrite c.type 1 CHUNK_TYPE_SIZE fp1).2
    let fp3 := (fwrite c.p_data 1 c.length fp2).2
    let fp4 := (fwrite net_crc 4 1 fp3).2
    (1, fp4)

/-- `write_PNG(filepath, in)` (lab_png.c:136-156): the return value and the file system
afterwards.  The three `write_chunk` calls are joined by `&&`, so a chunk is written only
when the calls before it returned non-zero. -/
def write_PNG (filepath : Option String) (inp : Option simple_PNG) (d : Disk) : Int × Disk :=
  match filepath, inp with
  | none, _ => (0, d)
  | some _, none => (0, d)
  | some path, some png =>
    if png.p_IHDR.isNone || png.p_IDAT.isNone || png.p_IEND.isNone then (0, d) else
    match fopen_wb d path with
    | none => (0, d)
    | some fp =>
      let (n, fp0) := fwrite png_signature 1 PNG_SIG_SIZE fp
      if n ≠ PNG_SIG_SIZE then (0, fclose_w d fp0) else
      let (r1, fp1) := write_chunk fp0 png.p_IHDR
      if r1 = 0 then (0, fclose_w d fp1) else
      let (r2, fp2) := write_chunk fp1 png.p_IDAT
      if r2 = 0 then (0, fclose_w d fp2) else
      let (r3, fp3) := write_chunk fp2 png.p_IEND
      (if r3 ≠ 0 then 1 else 0, fclose_w d fp3)

/-- The framing of one chunk: `BE32(length) ‖ type ‖ data ‖ BE32(crc)`. -/
def chunk.frame (c : chunk) : List U8 :=
  htonl c.length ++ c.type ++ c.p_data ++ htonl c.crc

/-- The number of bytes of the file `write_PNG` produces for three chunks. -/
def png_size (c1 c2 c3 : chunk) : Nat :=
  8 + (12 + c1.length) + (12 + c2.length) + (12 + c3.length)

/-- `get_chunk_crc(in)` (lab_png.c:104-106). -/
def get_chunk_crc (inp : Option chunk) : Nat :=
  match inp with
  | some c => c.crc
  | none => 0

/-! ## `crc.c` (not under `src/`) -/

/-- Modelled from the spec: one entry of the table of `crc.c`, the standard CRC-32 table
for the reversed polynomial `0xEDB88320`: eight shift steps applied to the index. -/
def crc_table (n : Nat) : Nat :=
  (fun c => if c &&& 1 = 1 then 0xedb88320 ^^^ (c >>> 1) else c >>> 1)^[8] n

/-- Modelled from the spec: the table-driven update of `crc.c`, one table lookup per
byte. -/
def update_crc (c : Nat) (buf : List U8) : Nat :=
  buf.foldl (fun c b => crc_table ((c ^^^ b.val) &&& 0xff) ^^^ (c >>> 8)) c

/-- Modelled from the spec: `crc(buf, len)` of `crc.c`, the CRC-32 of PNG and zlib:
initial value `0xFFFFFFFF`, final complement. -/
def crc (buf : List U8) : Nat :=
  update_crc 0xffffffff buf ^^^ 0xffffffff

/-- `calculate_chunk_crc(in)` (lab_png.c:108-117).  `ok_buf` is the outcome of `malloc`.
The size `in->length + CHUNK_TYPE_SIZE` is computed in `U32` and wraps at `2^32`; it is
both the size of the buffer and the number of bytes handed to `crc`.  The buffer receives
the four type bytes followed by `length` data bytes; when the size has wrapped the copies
run past the end of the buffer, and the bytes `crc` reads are the ones inside it. -/
def calculate_chunk_crc_alloc (ok_buf : Bool) (inp : Option chunk) : Nat :=
  match inp with
  | none => 0
  | some c =>
    if !ok_buf then 0 else
    let size := (c.length + CHUNK_TYPE_SIZE) % 2 ^ 32
    crc ((c.type.take CHUNK_TYPE_SIZE ++ c.p_data.take c.length).take size)

/-- `calculate_chunk_crc(in)` with the allocation succeeding. -/
def calculate_chunk_crc (inp : Option chunk) : Nat := calculate_chunk_crc_alloc true inp

/-- One shift step of the table construction undone: the top bit of a 32-bit value tells
whether the polynomial was xored in. -/
def crc_unshift (d : Nat) : Nat :=
  if d >>> 31 = 1 then ((d ^^^ 0xedb88320) <<< 1) ||| 1 else d <<< 1

/-- The table index recovered from the high byte `h` of a table entry. -/
def crc_index (h : Nat) : Nat := (crc_unshift^[8] (h <<< 24)) &&& 0xff

/-- The byte `b` with bit `j` flipped. -/
def flip_bit (b : U8) (j : Nat) : U8 := Fin.ofNat (b.val ^^^ (1 <<< j))

/-- The bytes `data` with bit `j` of byte `k` flipped. -/
def flip_data_bit (data : List U8) (k j : Nat) : List U8 :=
  data.set k (flip_bit (data.getD k 0) j)

/-! ## The concrete stream of the spec -/

/-- A chunk built for writing: the length of its data, and the crc of type and data. -/
def mk_chunk (type data : List U8) : chunk :=
  { length := data.length, type := type, p_data := data, crc := crc (type ++ data) }

def IDAT_tag : List U8 := [0x49, 0x44, 0x41, 0x54]
def IEND_tag : List U8 := [0x49, 0x45, 0x4E, 0x44]

/-- The IHDR payload for width 100, height 50, bit depth 8, colour type 2 and zero
compression, filter and interlace methods. -/
def example_ihdr_data : List U8 := [0, 0, 0, 100, 0, 0, 0, 50, 8, 2, 0, 0, 0]

def example_ihdr : chunk := mk_chunk IHDR_tag example_ihdr_data
def example_idat : chunk := mk_chunk IDAT_tag [0x01, 0x02]
def example_iend : chunk := mk_chunk IEND_tag []

/-- The stream `signature ‖ IHDR chunk ‖ IDAT chunk ‖ IEND chunk` of the spec. -/
def example_stream : FILE :=
  { data := png_signature ++ example_ihdr.frame ++ example_idat.frame ++ example_iend.frame
    pos := 0 }

/-! ## `findpng.c`

The file system the scanner walks is a tree: every directory entry carries the node that
`lstat`, `opendir`, `fopen` and `realpath` find under its path.  A C string is a `String`
with one character per byte, so `strlen` is the number of characters.  Messages written to
`stderr` are left out. -/

/-- `PATH_MAX_LEN` (findpng.c:22). -/
def PATH_MAX_LEN : Nat := 4096

mutual
/-- What the path of a directory entry leads to. -/
inductive FsNode where
  /-- `lstat` fails on the path. -/
  | absent
  /-- `S_ISLNK`. -/
  | symlink
  /-- Neither a link, a directory nor a regular file. -/
  | special
  /-- `S_ISREG`: the contents `fopen(path, "rb")` gives access to (`none` when it returns
  `NULL`) and the result of `realpath` (`none` when it returns `NULL`). -/
  | regular (content : Option (List U8)) (real : Option String)
  /-- `S_ISDIR`: the entries `readdir` lists (`none` when `opendir` returns `NULL`). -/
  | directory (entries : Option FsEntries)
/-- The entries of a directory, in the order `readdir` returns them. -/
inductive FsEntries where
  | nil
  | cons (d_name : String) (node : FsNode) (rest : FsEntries)
end

/-- What the scanner has changed so far: `*png_count` and the lines printed on `stdout`. -/
structure Scan where
  png_count : Int
  stdout : List String
  deriving DecidableEq, Repr

/-- `strlen(s)`. -/
def strlen (s : String) : Nat := s.length

/-- `snprintf(buf, size, ...)`: the string left in `buf` when the formatted text is `s`,
that is, its first `size - 1` characters. -/
def snprintf (size : Nat) (s : String) : String := ⟨s.data.take (size - 1)⟩

/-- The buffer `full_path` after findpng.c:41-48. -/
def full_path_of (base_path relative_path : String) : String :=
  if relative_path = "." then snprintf PATH_MAX_LEN base_path
  else snprintf PATH_MAX_LEN (base_path ++ "/" ++ relative_path)

/-- The variable `new_relative_len` (findpng.c:78-79). -/
def new_relative_len (relative_path d_name : String) : Nat :=
  if relative_path = "." then strlen d_name
  else strlen relative_path + 1 + strlen d_name

/-- An entry is passed over before any path is built (findpng.c:60-83): it is `.` or `..`,
or one of the two length checks fails. -/
def entry_skipped (full_path relative_path d_name : String) : Bool :=
  decide (d_name = "." ∨ d_name = "..")
    || decide (strlen full_path + 1 + strlen d_name ≥ PATH_MAX_LEN)
    || decide (new_relative_len relative_path d_name ≥ PATH_MAX_LEN)

/-- The buffer `new_relative_path` after findpng.c:87-91. -/
def new_relative_path_of (relative_path d_name : String) : String :=
  if relative_path = "." then snprintf PATH_MAX_LEN d_name
  else snprintf PATH_MAX_LEN (relative_path ++ "/" ++ d_name)

/-- The buffer `new_full_path` after findpng.c:95-96. -/
def new_full_path_of (full_path d_name : String) : String :=
  snprintf PATH_MAX_LEN (full_path ++ "/" ++ d_name)

mutual
/-- `search_directory(base_path, relative_path, png_count)` (findpng.c:32-133) run on the
node its `full_path` leads to. -/
def search_directory (base_path relative_path : String) (dir : FsNode) (st : Scan) : Scan :=
  match dir with
  | .directory (some entries) =>
    search_entries base_path relative_path (full_path_of base_path relative_path) entries st
  | _ => st
/-- The `readdir` loop of `search_directory` (findpng.c:57-130). -/
def search_entries (base_path relative_path full_path : String) (entries : FsEntries)
    (st : Scan) : Scan :=
  match entries with
  | .nil => st
  | .cons d_name node rest =>
    let st1 : Scan :=
      if entry_skipped full_path relative_path d_name then st else
      match node with
      | .absent => st
      | .symlink => st
      | .directory _ =>
        search_directory base_path (new_relative_path_of relative_path d_name) node st
      | .regular none _ => st
      | .regular (some bytes) real =>
        let (nread, sig, _) := fread 1 PNG_SIG_SIZE ⟨bytes, 0⟩
        if nread = PNG_SIG_SIZE ∧ is_png sig PNG_SIG_SIZE ≠ 0 then
          let st2 : Scan :=
            match real with
            | some absolute_path =>
              { png_count := st.png_count + 1, stdout := st.stdout ++ [absolute_path] }
            | none => st
          { st2 with png_count := st2.png_count + 1 }
        else st
      | .special => st
    search_entries base_path relative_path full_path rest st1
end

/-- A PNG file of 10 bytes whose `realpath` is `/srv/img/a.png`. -/
def example_png_file : FsNode :=
  .regular (some (png_signature ++ [0, 0])) (some "/srv/img/a.png")

/-- A directory holding `.`, `..`, one PNG file, one text file and a link. -/
def example_dir : FsNode :=
  .directory (some (.cons "." (.directory none) (.cons ".." (.directory none)
    (.cons "a.png" example_png_file
    (.cons "notes.txt" (.regular (some [0x68, 0x69]) (some "/srv/img/notes.txt"))
    (.cons "link.png" .symlink .nil))))))

/-! ## Further concrete streams -/

/-- An IHDR-typed chunk whose length field and payload are 10 bytes. -/
def example_ten_byte_ihdr : FILE :=
  { data := (mk_chunk IHDR_tag [0, 0, 0, 100, 0, 0, 0, 50, 8, 2]).frame, pos := 0 }

/-- An IHDR chunk cut off after 6 of its 13 data bytes. -/
def example_six_of_thirteen : FILE :=
  { data := htonl 13 ++ IHDR_tag ++ [0, 0, 0, 100, 0, 0], pos := 0 }

/-- A complete IHDR chunk followed by an IDAT chunk cut off inside its data. -/
def example_truncated_second : FILE :=
  { data := example_ihdr.frame ++ (htonl 2 ++ IDAT_tag ++ [0x01]), pos := 0 }

/-- Eight zero bytes in the place of the signature, followed by the three chunks. -/
def example_bad_signature : FILE :=
  { data := [0, 0, 0, 0, 0, 0, 0, 0] ++ example_ihdr.frame ++ example_idat.frame
      ++ example_iend.frame
    pos := 0 }

/-- An IHDR chunk that ends after its 13 data bytes, without a crc. -/
def example_no_crc : FILE :=
  { data := htonl 13 ++ IHDR_tag ++ example_ihdr_data, pos := 0 }

/-- The IDAT chunk of the spec's stream with a stored crc that is off by one. -/
def example_idat_bad_crc : chunk := { example_idat with crc := example_idat.crc + 1 }

/-- A PNG file on which `realpath` fails. -/
def example_png_no_realpath : FsNode := .regular (some (png_signature ++ [0, 0])) none

/-! ## Chunks whose length field makes `length + 4` wrap -/

/-- `2^32 - 5` zero bytes. -/
def wrap_tail : List U8 := List.replicate 4294967291 0

/-- A chunk of length `2^32 - 4` whose data are all zero, with the crc of its type and
data stored. -/
def example_wrap_zero : chunk :=
  { length := 4294967292, type := IHDR_tag, p_data := 0 :: wrap_tail
    crc := crc (IHDR_tag ++ 0 :: wrap_tail) }

/-- The same chunk with bit 0 of its first data byte set. -/
def example_wrap_one : chunk :=
  { length := 4294967292, type := IHDR_tag, p_data := 1 :: wrap_tail
    crc := crc (IHDR_tag ++ 1 :: wrap_tail) }

/-! ## Checks on concrete inputs -/

example : is_png png_signature 8 = 1 := by decide
example : is_png (png_signature ++ [0]) 9 = 1 := by decide
example : is_png (png_signature.take 7) 7 = 0 := by decide
example : ntohl (htonl 0x01020304) = 0x01020304 := by decide
example : htonl 13 = [0, 0, 0, 13] := by decide
example : (get_png_chunks_alloc (true, false) (true, true) (true, true) (some mallocPNG)
    ⟨htonl 28 ++ IHDR_tag ++ example_idat.frame ++ example_idat.frame, 0⟩ 0 SEEK_SET).2.1
    = some ⟨none, some example_idat, some example_idat⟩ := by decide
example : calculate_chunk_crc_alloc false (some example_idat) = 0 := by decide
example : crc IEND_tag = 0xAE426082 := by decide
example : crc [0x31, 0x32, 0x33, 0x34, 0x35, 0x36, 0x37, 0x38, 0x39] = 0xCBF43926 := by decide
example : flip_data_bit [1, 2, 3] 1 7 = [1, 0x82, 3] := by decide
example : search_directory "img" "." example_dir ⟨0, []⟩ = ⟨2, ["/srv/img/a.png"]⟩ := by decide
example : snprintf 4 "abcdef" = "abc" := by decide
example : example_iend.frame = [0, 0, 0, 0, 0x49, 0x45, 0x4E, 0x44, 0xAE, 0x42, 0x60, 0x82] := by decide
example : (get_chunk ⟨htonl 2 ++ IHDR_tag ++ [7, 9] ++ htonl 5 ++ [1], 0⟩).1
    = some ⟨2, IHDR_tag, [7, 9], 5⟩ := by decide
example : (get_chunk ⟨htonl 2 ++ IHDR_tag ++ [7, 9] ++ [0, 0, 0], 0⟩).1 = none := by decide

/-! ## Lemmas on the library model -/

theorem FILE.remaining_mk_add (data : List U8) (pos k : Nat) :
    FILE.remaining ⟨data, pos + k⟩ = (FILE.remaining ⟨data, pos⟩).drop k := by
  simp [FILE.remaining, List.drop_drop, Nat.add_comm]

/-- A read of `size * nmemb` bytes that are all there returns `nmemb` items, exactly those
bytes, and leaves the rest. -/
theorem fread_append (size nmemb : Nat) (fp : FILE) (xs ys : List U8) (hs : 0 < size)
    (hr : fp.remaining = xs ++ ys) (hl : xs.length = size * nmemb) :
    fread size nmemb fp = (nmemb, xs, ⟨fp.data, fp.pos + size * nmemb⟩)
      ∧ FILE.remaining ⟨fp.data, fp.pos + size * nmemb⟩ = ys := by
  have htake : (xs ++ ys).take (size * nmemb) = xs := by
    rw [← hl]; simp
  constructor
  · simp only [fread, hr, htake, hl]
    have : size * nmemb / size = nmemb := Nat.mul_div_cancel_left nmemb hs
    simp [this, Nat.ne_of_gt hs]
  · rw [FILE.remaining_mk_add]
    show (FILE.remaining fp).drop _ = ys
    rw [hr, ← hl]; simp

theorem ntohl_htonl (x : Nat) (hx : x < 2 ^ 32) : ntohl (htonl x) = x := by
  simp only [ntohl, htonl, List.getD_cons_zero, List.getD_cons_succ, Fin.ofNat, Fin.val_mk]
  omega

theorem htonl_length (x : Nat) : (htonl x).length = 4 := rfl

/-! ## Lemmas on `get_chunk` -/

theorem get_chunk_alloc_true (fp : FILE) : get_chunk_alloc true true fp = get_chunk fp := rfl


/-- Reading a framed chunk: `get_chunk` returns its four fields and stops right after it. -/
theorem get_chunk_frame (fp : FILE) (n : Nat) (t d : List U8) (c : Nat) (rest : List U8)
    (hn : n < 2 ^ 32) (ht : t.length = 4) (hd : d.length = n) (hc : c < 2 ^ 32)
    (hr : fp.remaining = htonl n ++ t ++ d ++ htonl c ++ rest) :
    get_chunk fp = (some ⟨n, t, d, c⟩, ⟨fp.data, fp.pos + (12 + n)⟩)
      ∧ FILE.remaining ⟨fp.data, fp.pos + (12 + n)⟩ = rest := by
  have h1 := fread_append 4 1 fp (htonl n) (t ++ d ++ htonl c ++ rest) (by decide)
    (by simpa [List.append_assoc] using hr) (by simp [htonl_length])
  have h2 := fread_append 1 CHUNK_TYPE_SIZE ⟨fp.data, fp.pos + 4 * 1⟩ t (d ++ htonl c ++ rest)
    (by decide) (by simpa [List.append_assoc] using h1.2) (by simp [ht, CHUNK_TYPE_SIZE])
  have h3 := fread_append 1 n ⟨fp.data, fp.pos + 4 * 1 + 1 * CHUNK_TYPE_SIZE⟩ d
    (htonl c ++ rest) (by decide) (by simpa [List.append_assoc] using h2.2) (by simp [hd])
  have h4 := fread_append 4 1 ⟨fp.data, fp.pos + 4 * 1 + 1 * CHUNK_TYPE_SIZE + 1 * n⟩
    (htonl c) rest (by decide) h3.2 (by simp [htonl_length])
  have hpos : fp.pos + 4 * 1 + 1 * CHUNK_TYPE_SIZE + 1 * n + 4 * 1 = fp.pos + (12 + n) := by
    simp only [CHUNK_TYPE_SIZE]; omega
  constructor
  · unfold get_chunk get_chunk_alloc
    simp only [h1.1, ntohl_htonl n hn, h2.1, h3.1, h4.1, ntohl_htonl c hc, ne_eq,
      not_true_eq_false, if_false, Bool.not_true, Bool.false_eq_true]
    simp only [hpos]
  · rw [← hpos]; exact h4.2


theorem FILE.remaining_length (fp : FILE) : fp.remaining.length = fp.data.length - fp.pos := by
  simp [FILE.remaining]

theorem get_chunk_isSome_iff (fp : FILE) :
    (get_chunk fp).1.isSome ↔ 12 + ntohl (fp.remaining.take 4) ≤ fp.remaining.length := by
  unfold get_chunk get_chunk_alloc fread
  simp only [CHUNK_TYPE_SIZE, FILE.remaining_mk_add, List.length_take, List.length_drop,
    Bool.not_true, Bool.false_eq_true, if_false]
  generalize ntohl (List.take (4 * 1) fp.remaining) = len
  generalize hL : fp.remaining.length = L
  simp only [Nat.mul_one, Nat.one_mul, Nat.div_one, OfNat.ofNat_ne_zero, one_ne_zero,
    if_false, ne_eq]
  split_ifs <;> simp <;> omega


theorem ntohl_lt (b : List U8) : ntohl b < 2 ^ 32 := by
  have h0 := (b.getD 0 0).is_lt
  have h1 := (b.getD 1 0).is_lt
  have h2 := (b.getD 2 0).is_lt
  have h3 := (b.getD 3 0).is_lt
  simp only [ntohl]
  omega

theorem htonl_ntohl (b : List U8) (hb : b.length = 4) : htonl (ntohl b) = b := by
  match b, hb with
  | [a0, a1, a2, a3], _ =>
    have h0 := a0.is_lt
    have h1 := a1.is_lt
    have h2 := a2.is_lt
    have h3 := a3.is_lt
    simp only [ntohl, htonl, List.getD_cons_zero, List.getD_cons_succ, Fin.ofNat]
    congr 1
    · apply Fin.ext; simp only [Fin.val_mk]; omega
    congr 1
    · apply Fin.ext; simp only [Fin.val_mk]; omega
    congr 1
    · apply Fin.ext; simp only [Fin.val_mk]; omega
    congr 1
    · apply Fin.ext; simp only [Fin.val_mk]; omega

/-- The result of `get_chunk` whenever the stream holds a whole chunk. -/
theorem get_chunk_of_le (fp : FILE)
    (h : 12 + ntohl (fp.remaining.take 4) ≤ fp.remaining.length) :
    get_chunk fp =
      (some ⟨ntohl (fp.remaining.take 4), (fp.remaining.drop 4).take 4,
          (fp.remaining.drop 8).take (ntohl (fp.remaining.take 4)),
          ntohl ((fp.remaining.drop (8 + ntohl (fp.remaining.take 4))).take 4)⟩,
        ⟨fp.data, fp.pos + (12 + ntohl (fp.remaining.take 4))⟩) := by
  generalize hlen : ntohl (fp.remaining.take 4) = len at h ⊢
  have hsplit : fp.remaining = htonl len ++ (fp.remaining.drop 4).take 4
      ++ (fp.remaining.drop 8).take len
      ++ htonl (ntohl ((fp.remaining.drop (8 + len)).take 4))
      ++ fp.remaining.drop (12 + len) := by
    rw [← hlen, htonl_ntohl _ (by simp; omega), htonl_ntohl _ (by simp; omega), hlen]
    have e1 : fp.remaining.drop 8 = (fp.remaining.drop 4).drop 4 := by simp
    have e2 : fp.remaining.drop (8 + len) = (fp.remaining.drop 8).drop len := by
      simp [Nat.add_comm]
    have e3 : fp.remaining.drop (12 + len) = (fp.remaining.drop (8 + len)).drop 4 := by
      simp [List.drop_drop]; congr 1; omega
    rw [e3, e2, e1]
    simp only [List.append_assoc, List.take_append_drop]
  exact (get_chunk_frame fp len _ _ _ _ (hlen ▸ ntohl_lt _) (by simp; omega) (by simp; omega)
    (ntohl_lt _) hsplit).1

/-- Every chunk `get_chunk` returns is the framed chunk at the front of the stream. -/
theorem get_chunk_some (fp fp1 : FILE) (c : chunk) (h : get_chunk fp = (some c, fp1)) :
    12 + ntohl (fp.remaining.take 4) ≤ fp.remaining.length
      ∧ c.length = ntohl (fp.remaining.take 4)
      ∧ c.type = (fp.remaining.drop 4).take 4
      ∧ c.p_data = (fp.remaining.drop 8).take c.length
      ∧ c.crc = ntohl ((fp.remaining.drop (8 + c.length)).take 4)
      ∧ fp1 = ⟨fp.data, fp.pos + (12 + c.length)⟩ := by
  have hle : 12 + ntohl (fp.remaining.take 4) ≤ fp.remaining.length := by
    rw [← get_chunk_isSome_iff, h]; rfl
  rw [get_chunk_of_le fp hle] at h
  simp only [Prod.mk.injEq, Option.some.injEq] at h
  obtain ⟨hc, hfp⟩ := h
  subst hc; subst hfp
  exact ⟨hle, rfl, rfl, rfl, rfl, rfl⟩

/-! ## The signature predicate -/

/-- C2: on a buffer `buf` of length `n`, `is_png` is true exactly when `n >= 8` and the
first 8 bytes are the signature; it is false for every buffer shorter than 8 bytes; and
two buffers of at least 8 bytes with the same first 8 bytes get the same answer. -/
theorem is_png_iff_signature (buf : List U8) :
    (is_png buf buf.length ≠ 0 ↔ 8 ≤ buf.length ∧ buf.take 8 = png_signature)
      ∧ (is_png buf buf.length = 0 ∨ is_png buf buf.length = 1)
      ∧ (buf.length < 8 → is_png buf buf.length = 0)
      ∧ (∀ other : List U8, 8 ≤ buf.length → 8 ≤ other.length →
          other.take 8 = buf.take 8 → is_png other other.length = is_png buf buf.length) := by
  have hsig : png_signature.take 8 = png_signature := rfl
  refine ⟨?_, ?_, ?_, ?_⟩
  · simp only [is_png, memcmp_eq, PNG_SIG_SIZE, hsig, beq_iff_eq]
    split_ifs <;> simp_all
  · simp only [is_png]
    split_ifs <;> simp
  · intro h
    simp [is_png, PNG_SIG_SIZE, h]
  · intro other h1 h2 h3
    simp only [is_png, memcmp_eq, PNG_SIG_SIZE, h3]
    have e1 : ¬ buf.length < 8 := by omega
    have e2 : ¬ other.length < 8 := by omega
    simp only [e1, e2, if_false]

theorem is_png_iff_signature_witness :
    is_png (png_signature.take 7) 7 = 0
      ∧ is_png (png_signature ++ [1, 2, 3]) 11 = is_png png_signature 8 :=
  ⟨(is_png_iff_signature (png_signature.take 7)).2.2.1 (by decide),
   (is_png_iff_signature png_signature).2.2.2 (png_signature ++ [1, 2, 3]) (by decide)
     (by decide) (by decide)⟩

/-- C3, refuted as stated: the signature followed by one garbage byte is accepted. -/
theorem is_png_trailing_garbage_accepted :
    ¬ (∀ garbage : List U8, garbage ≠ [] →
        is_png (png_signature ++ garbage) (png_signature ++ garbage).length = 0) := by
  intro h
  exact absurd (h [0xFF] (by decide)) (by decide)

/-- C3, amended: every buffer that consists of the signature followed by any bytes is
accepted by `is_png`. -/
theorem is_png_signature_append (garbage : List U8) :
    is_png (png_signature ++ garbage) (png_signature ++ garbage).length = 1 := by
  have hlen : ¬ (png_signature ++ garbage).length < 8 := by
    simp [png_signature]
  have htake : (png_signature ++ garbage).take 8 = png_signature := by
    simp [png_signature]
  simp only [is_png, memcmp_eq, PNG_SIG_SIZE, hlen, htake, if_false]
  rfl

/-! ## Reading a chunk -/

/-- C4: on a stream whose remaining bytes are `BE32(n) ‖ t ‖ d ‖ BE32(c) ‖ rest`,
`get_chunk` returns the chunk with length `n`, type `t`, data `d` and crc `c`, whatever
the values of `t` and `c` are (no validation of the type, no check of the crc against the
data), consumes exactly `12 + n` bytes and leaves the stream at `rest`. -/
theorem get_chunk_decodes_frame (fp : FILE) (n : Nat) (t d : List U8) (c : Nat)
    (rest : List U8) (hn : n < 2 ^ 32) (ht : t.length = 4) (hd : d.length = n)
    (hc : c < 2 ^ 32) (hr : fp.remaining = htonl n ++ t ++ d ++ htonl c ++ rest) :
    (get_chunk fp).1 = some { length := n, type := t, p_data := d, crc := c }
      ∧ (get_chunk fp).2.data = fp.data
      ∧ (get_chunk fp).2.pos = fp.pos + (12 + n)
      ∧ (get_chunk fp).2.remaining = rest := by
  obtain ⟨h1, h2⟩ := get_chunk_frame fp n t d c rest hn ht hd hc hr
  rw [h1]
  exact ⟨rfl, rfl, rfl, h2⟩

theorem get_chunk_decodes_frame_witness :
    (get_chunk ⟨[9] ++ (htonl 2 ++ IDAT_tag ++ [1, 2] ++ htonl 0xDEADBEEF ++ [7, 7]), 1⟩).1
        = some { length := 2, type := IDAT_tag, p_data := [1, 2], crc := 0xDEADBEEF }
      ∧ crc (IDAT_tag ++ [1, 2]) ≠ 0xDEADBEEF
      ∧ (get_chunk ⟨[9] ++ (htonl 2 ++ IDAT_tag ++ [1, 2] ++ htonl 0xDEADBEEF ++ [7, 7]), 1⟩).2.remaining
        = [7, 7] :=
  have h := get_chunk_decodes_frame
    ⟨[9] ++ (htonl 2 ++ IDAT_tag ++ [1, 2] ++ htonl 0xDEADBEEF ++ [7, 7]), 1⟩
    2 IDAT_tag [1, 2] 0xDEADBEEF [7, 7] (by decide) (by decide) (by decide) (by decide)
    (by decide)
  ⟨h.1, by decide, h.2.2.2⟩

/-- C5: `get_chunk` returns no chunk when the stream ends before the length field, before
the type, before all `length` data bytes, or before the crc; and a chunk it does return
has exactly `length` data bytes. -/
theorem get_chunk_all_or_nothing (fp : FILE) :
    (fp.remaining.length < 4 → (get_chunk fp).1 = none)
      ∧ (fp.remaining.length < 4 + 4 → (get_chunk fp).1 = none)
      ∧ (fp.remaining.length < 4 + 4 + ntohl (fp.remaining.take 4) → (get_chunk fp).1 = none)
      ∧ (fp.remaining.length < 4 + 4 + ntohl (fp.remaining.take 4) + 4 →
          (get_chunk fp).1 = none)
      ∧ (∀ c : chunk, (get_chunk fp).1 = some c → c.p_data.length = c.length) := by
  have key : fp.remaining.length < 12 + ntohl (fp.remaining.take 4) → (get_chunk fp).1 = none := by
    intro h
    have := get_chunk_isSome_iff fp
    cases hg : (get_chunk fp).1 with
    | none => rfl
    | some c => rw [hg] at this; simp at this; omega
  refine ⟨fun h => key (by omega), fun h => key (by omega), fun h => key (by omega),
    fun h => key (by omega), ?_⟩
  intro c hc
  obtain ⟨hle, _, _, hdata, _, _⟩ := get_chunk_some fp (get_chunk fp).2 c (by rw [← hc])
  have hlen := congrArg List.length hdata
  simp only [List.length_take, List.length_drop] at hlen
  omega

theorem get_chunk_all_or_nothing_witness :
    (get_chunk ⟨[0, 0], 0⟩).1 = none
      ∧ (get_chunk ⟨htonl 13 ++ [0x49, 0x48], 0⟩).1 = none
      ∧ (get_chunk ⟨htonl 13 ++ IHDR_tag ++ [0, 0, 0, 100, 0, 0], 0⟩).1 = none
      ∧ (get_chunk ⟨htonl 2 ++ IDAT_tag ++ [1, 2] ++ [0xAA, 0xBB], 0⟩).1 = none
      ∧ ([1, 2] : List U8).length = 2 :=
  ⟨(get_chunk_all_or_nothing ⟨[0, 0], 0⟩).1 (by decide),
   (get_chunk_all_or_nothing ⟨htonl 13 ++ [0x49, 0x48], 0⟩).2.1 (by decide),
   (get_chunk_all_or_nothing ⟨htonl 13 ++ IHDR_tag ++ [0, 0, 0, 100, 0, 0], 0⟩).2.2.1
     (by decide),
   (get_chunk_all_or_nothing ⟨htonl 2 ++ IDAT_tag ++ [1, 2] ++ [0xAA, 0xBB], 0⟩).2.2.2.1
     (by decide),
   (get_chunk_all_or_nothing ⟨htonl 2 ++ IDAT_tag ++ [1, 2] ++ htonl 5, 0⟩).2.2.2.2
     ⟨2, IDAT_tag, [1, 2], 5⟩ (by decide)⟩

/-! ## Lemmas on writing -/

/-- A write of `size * nmemb` bytes for which the device has room appends all of them. -/
theorem fwrite_room (buf : List U8) (size nmemb : Nat) (fp : OFILE)
    (hl : buf.length = size * nmemb) (hroom : size * nmemb ≤ fp.room) :
    (fwrite buf size nmemb fp).2 = ⟨fp.path, fp.out ++ buf, fp.room - size * nmemb⟩ := by
  simp only [fwrite, Nat.min_eq_left hroom]
  rw [← hl, List.take_length]

/-- Writing a chunk for which the device has room appends its framing. -/
theorem write_chunk_frame (fp : OFILE) (c : chunk) (ht : c.type.length = 4)
    (hd : c.p_data.length = c.length) (hroom : 12 + c.length ≤ fp.room) :
    write_chunk fp (some c) = (1, ⟨fp.path, fp.out ++ c.frame, fp.room - (12 + c.length)⟩) := by
  simp only [write_chunk, CHUNK_TYPE_SIZE]
  rw [fwrite_room (htonl c.length) 4 1 fp rfl (by omega)]
  rw [fwrite_room c.type 1 4 _ (by simp [ht]) (by simp only []; omega)]
  rw [fwrite_room c.p_data 1 c.length _ (by simp [hd]) (by simp only []; omega)]
  rw [fwrite_room (htonl c.crc) 4 1 _ rfl (by simp only []; omega)]
  simp only [chunk.frame, List.append_assoc, Prod.mk.injEq, OFILE.mk.injEq, true_and]
  omega

/-- Writing a container for which the destination can be opened and the device has room
produces the signature followed by the three framings. -/
theorem write_PNG_frames (path : String) (d : Disk) (c1 c2 c3 : chunk)
    (hw : d.writable path = true)
    (ht1 : c1.type.length = 4) (hd1 : c1.p_data.length = c1.length)
    (ht2 : c2.type.length = 4) (hd2 : c2.p_data.length = c2.length)
    (ht3 : c3.type.length = 4) (hd3 : c3.p_data.length = c3.length)
    (hroom : png_size c1 c2 c3 ≤ d.room) :
    write_PNG (some path) (some ⟨some c1, some c2, some c3⟩) d
      = (1, fclose_w d ⟨path, png_signature ++ c1.frame ++ c2.frame ++ c3.frame,
              d.room - png_size c1 c2 c3⟩) := by
  unfold png_size at hroom
  have hsig : fwrite png_signature 1 PNG_SIG_SIZE ⟨path, [], d.room⟩
      = (PNG_SIG_SIZE, ⟨path, png_signature, d.room - 8⟩) := by
    have h8 : min 8 d.room = 8 := Nat.min_eq_left (by omega)
    simp [fwrite, PNG_SIG_SIZE, h8, png_signature]
  simp only [write_PNG, fopen_wb, hw, if_true, Option.isNone_some, Bool.or_self,
    Bool.false_eq_true, if_false, hsig, ne_eq, not_true_eq_false]
  rw [write_chunk_frame _ c1 ht1 hd1 (by simp only []; omega)]
  simp only [one_ne_zero, if_false]
  rw [write_chunk_frame _ c2 ht2 hd2 (by simp only []; omega)]
  simp only [one_ne_zero, if_false]
  rw [write_chunk_frame _ c3 ht3 hd3 (by simp only []; omega)]
  simp only [one_ne_zero, not_false_eq_true, if_true, Prod.mk.injEq, true_and, png_size]
  congr 2
  omega

/-! ## Lemmas on reading a container -/

theorem fseek_set (fp : FILE) (k : Nat) : fseek fp (k : Int) SEEK_SET = (0, ⟨fp.data, k⟩) := by
  have h : ¬ ((0 : Int) + (k : Int) < 0) := by omega
  simp only [fseek, SEEK_SET, if_true, h, if_false]
  simp

theorem fseek_cur (fp : FILE) (k : Nat) :
    fseek fp (k : Int) SEEK_CUR = (0, ⟨fp.data, fp.pos + k⟩) := by
  have h : ¬ ((fp.pos : Int) + (k : Int) < 0) := by omega
  have h1 : ¬ (SEEK_CUR = SEEK_SET) := by decide
  simp only [fseek, h1, if_true, h, if_false]
  congr 2

/-- Reading three framed chunks in a row fills the three slots in order. -/
theorem get_png_chunks_frames (out0 : simple_PNG) (fp fp0 : FILE) (offset whence : Int)
    (c1 c2 c3 : chunk) (rest : List U8) (hseek : fseek fp offset whence = (0, fp0))
    (hw1 : c1.WellTyped) (hd1 : c1.p_data.length = c1.length)
    (hw2 : c2.WellTyped) (hd2 : c2.p_data.length = c2.length)
    (hw3 : c3.WellTyped) (hd3 : c3.p_data.length = c3.length)
    (hr : fp0.remaining = c1.frame ++ c2.frame ++ c3.frame ++ rest) :
    get_png_chunks (some out0) fp offset whence
      = (1, some ⟨some c1, some c2, some c3⟩,
          ⟨fp0.data, fp0.pos + (12 + c1.length) + (12 + c2.length) + (12 + c3.length)⟩) := by
  obtain ⟨g1, r1⟩ := get_chunk_frame fp0 c1.length c1.type c1.p_data c1.crc
    (c2.frame ++ c3.frame ++ rest) hw1.1 hw1.2.1 hd1 hw1.2.2
    (by simpa [chunk.frame, List.append_assoc] using hr)
  obtain ⟨g2, r2⟩ := get_chunk_frame ⟨fp0.data, fp0.pos + (12 + c1.length)⟩ c2.length c2.type
    c2.p_data c2.crc (c3.frame ++ rest) hw2.1 hw2.2.1 hd2 hw2.2.2
    (by simpa [chunk.frame, List.append_assoc] using r1)
  obtain ⟨g3, _⟩ := get_chunk_frame
    ⟨fp0.data, fp0.pos + (12 + c1.length) + (12 + c2.length)⟩ c3.length c3.type
    c3.p_data c3.crc rest hw3.1 hw3.2.1 hd3 hw3.2.2
    (by simpa [chunk.frame, List.append_assoc] using r2)
  simp only [get_png_chunks, get_png_chunks_alloc, get_chunk_alloc_true, hseek, ne_eq,
    not_true_eq_false, if_false, g1, g2, g3,
    Option.isNone_some, Bool.or_self, Bool.false_eq_true]


/-- The shift-and-or expression is the big-endian value of the four bytes. -/
theorem be_or_eq (b0 b1 b2 b3 : U8) :
    be_or b0 b1 b2 b3 = b0.val * 2 ^ 24 + b1.val * 2 ^ 16 + b2.val * 2 ^ 8 + b3.val := by
  have h0 := b0.is_lt
  have h1 := b1.is_lt
  have h2 := b2.is_lt
  have h3 := b3.is_lt
  have e3 : b2.val <<< 8 ||| b3.val = b2.val * 2 ^ 8 + b3.val := by
    rw [Nat.shiftLeft_eq, Nat.mul_comm, ← Nat.mul_add_lt_is_or (by omega)]
  have e2 : b1.val <<< 16 ||| (b2.val * 2 ^ 8 + b3.val)
      = b1.val * 2 ^ 16 + (b2.val * 2 ^ 8 + b3.val) := by
    rw [Nat.shiftLeft_eq, Nat.mul_comm, ← Nat.mul_add_lt_is_or (by omega)]
  have e1 : b0.val <<< 24 ||| (b1.val * 2 ^ 16 + (b2.val * 2 ^ 8 + b3.val))
      = b0.val * 2 ^ 24 + (b1.val * 2 ^ 16 + (b2.val * 2 ^ 8 + b3.val)) := by
    rw [Nat.shiftLeft_eq, Nat.mul_comm, ← Nat.mul_add_lt_is_or (by omega)]
  unfold be_or
  rw [Nat.lor_assoc, Nat.lor_assoc, e3, e2, e1]
  omega

/-! ## Writing -/

/-- C6: for a chunk whose length is the size of its data, and a device that accepts the
bytes, `write_chunk` appends exactly `BE32(length) ‖ type ‖ data ‖ BE32(crc)`; and for a
container with all three slots present, `write_PNG` produces a file that is exactly the
signature followed by the framings of ihdr, idat and iend, touching no other file. -/
theorem write_layout_exact (fp : OFILE) (c : chunk) (path : String) (d : Disk)
    (c1 c2 c3 : chunk)
    (ht : c.type.length = 4) (hd : c.p_data.length = c.length) (hroom : 12 + c.length ≤ fp.room)
    (hw : d.writable path = true)
    (ht1 : c1.type.length = 4) (hd1 : c1.p_data.length = c1.length)
    (ht2 : c2.type.length = 4) (hd2 : c2.p_data.length = c2.length)
    (ht3 : c3.type.length = 4) (hd3 : c3.p_data.length = c3.length)
    (hdroom : png_size c1 c2 c3 ≤ d.room) :
    (write_chunk fp (some c)).1 = 1
      ∧ (write_chunk fp (some c)).2.out
          = fp.out ++ (htonl c.length ++ c.type ++ c.p_data ++ htonl c.crc)
      ∧ (write_PNG (some path) (some ⟨some c1, some c2, some c3⟩) d).1 = 1
      ∧ (write_PNG (some path) (some ⟨some c1, some c2, some c3⟩) d).2.files path
          = some (png_signature
              ++ (htonl c1.length ++ c1.type ++ c1.p_data ++ htonl c1.crc)
              ++ (htonl c2.length ++ c2.type ++ c2.p_data ++ htonl c2.crc)
              ++ (htonl c3.length ++ c3.type ++ c3.p_data ++ htonl c3.crc))
      ∧ (∀ p : String, p ≠ path →
          (write_PNG (some path) (some ⟨some c1, some c2, some c3⟩) d).2.files p
            = d.files p) := by
  rw [write_chunk_frame fp c ht hd hroom,
    write_PNG_frames path d c1 c2 c3 hw ht1 hd1 ht2 hd2 ht3 hd3 hdroom]
  refine ⟨rfl, rfl, rfl, ?_, ?_⟩
  · simp [fclose_w, chunk.frame]
  · intro p hp
    simp [fclose_w, hp]

theorem write_layout_exact_witness :
    (write_chunk ⟨"out.png", [], 100⟩ (some example_idat)).2.out
        = [] ++ (htonl 2 ++ IDAT_tag ++ [0x01, 0x02] ++ htonl example_idat.crc)
      ∧ (write_PNG (some "out.png")
            (some ⟨some example_ihdr, some example_idat, some example_iend⟩)
            ⟨fun _ => none, fun _ => true, 100⟩).2.files "out.png"
          = some (png_signature
              ++ (htonl 13 ++ IHDR_tag ++ example_ihdr_data ++ htonl example_ihdr.crc)
              ++ (htonl 2 ++ IDAT_tag ++ [0x01, 0x02] ++ htonl example_idat.crc)
              ++ (htonl 0 ++ IEND_tag ++ [] ++ htonl example_iend.crc)) :=
  have h := write_layout_exact ⟨"out.png", [], 100⟩ example_idat "out.png"
    ⟨fun _ => none, fun _ => true, 100⟩ example_ihdr example_idat example_iend
    (by decide) (by decide) (by decide) rfl (by decide) (by decide) (by decide) (by decide)
    (by decide) (by decide) (by decide)
  ⟨h.2.1, h.2.2.2.1⟩

/-- C7, the code at a failing input: on a device with no room at all every `fwrite` of
`write_chunk` is short, yet `write_chunk` returns 1; and on a device with room for ten
bytes `write_PNG` returns 1 although the file holds only the signature and two bytes of
the first length field. -/
theorem write_chunk_ignores_short_writes :
    write_chunk ⟨"out.png", [], 0⟩ (some example_idat) = (1, ⟨"out.png", [], 0⟩)
      ∧ (fwrite (htonl example_idat.length) 4 1 ⟨"out.png", [], 0⟩).1 = 0
      ∧ (write_PNG (some "out.png")
            (some ⟨some example_ihdr, some example_idat, some example_iend⟩)
            ⟨fun _ => none, fun _ => true, 10⟩).1 = 1
      ∧ (write_PNG (some "out.png")
            (some ⟨some example_ihdr, some example_idat, some example_iend⟩)
            ⟨fun _ => none, fun _ => true, 10⟩).2.files "out.png"
          = some (png_signature ++ [0, 0]) := by
  refine ⟨by decide, by decide, by decide, by decide⟩

/-- C8: when at least one of the three slots is absent, `write_PNG` returns 0 and leaves
the file system as it was: nothing is opened, created or written. -/
theorem write_PNG_absent_slot (filepath : Option String) (png : simple_PNG) (d : Disk)
    (h : png.p_IHDR = none ∨ png.p_IDAT = none ∨ png.p_IEND = none) :
    write_PNG filepath (some png) d = (0, d) := by
  cases filepath with
  | none => rfl
  | some path =>
    have hnone : (png.p_IHDR.isNone || png.p_IDAT.isNone || png.p_IEND.isNone) = true := by
      rcases h with h | h | h <;> simp [h]
    simp only [write_PNG, hnone, if_true]

theorem write_PNG_absent_slot_witness :
    (write_PNG (some "out.png") (some ⟨some example_ihdr, none, some example_iend⟩)
        ⟨fun _ => none, fun _ => true, 100⟩).1 = 0
      ∧ (write_PNG (some "out.png") (some ⟨some example_ihdr, none, some example_iend⟩)
        ⟨fun _ => none, fun _ => true, 100⟩).2.files "out.png" = none :=
  have h := write_PNG_absent_slot (some "out.png")
    ⟨some example_ihdr, none, some example_iend⟩ ⟨fun _ => none, fun _ => true, 100⟩
    (Or.inr (Or.inl rfl))
  ⟨by rw [h], by rw [h]⟩

/-! ## Round trip -/

/-- C1: for a container whose three slots are present and whose chunks have a length equal
to the size of their data, on a destination that can be opened and a device that accepts
the bytes, `write_PNG` succeeds, and `get_png_chunks` at offset 8 of the written file
succeeds and returns the same three chunks (type, length, data and crc) in the same
slots. -/
theorem write_read_round_trip (path : String) (d : Disk) (c1 c2 c3 : chunk)
    (out0 : simple_PNG) (hw : d.writable path = true)
    (hw1 : c1.WellTyped) (hd1 : c1.length = c1.p_data.length)
    (hw2 : c2.WellTyped) (hd2 : c2.length = c2.p_data.length)
    (hw3 : c3.WellTyped) (hd3 : c3.length = c3.p_data.length)
    (hroom : png_size c1 c2 c3 ≤ d.room) :
    (write_PNG (some path) (some ⟨some c1, some c2, some c3⟩) d).1 = 1
      ∧ ∃ fp : FILE,
          fopen_rb (write_PNG (some path) (some ⟨some c1, some c2, some c3⟩) d).2 path = some fp
          ∧ (get_png_chunks (some out0) fp 8 SEEK_SET).1 = 1
          ∧ (get_png_chunks (some out0) fp 8 SEEK_SET).2.1 = some ⟨some c1, some c2, some c3⟩ := by
  rw [write_PNG_frames path d c1 c2 c3 hw hw1.2.1 hd1.symm hw2.2.1 hd2.symm hw3.2.1 hd3.symm
    hroom]
  refine ⟨rfl, ⟨png_signature ++ c1.frame ++ c2.frame ++ c3.frame, 0⟩, ?_, ?_⟩
  · simp [fopen_rb, fclose_w]
  · have hseek := fseek_set ⟨png_signature ++ c1.frame ++ c2.frame ++ c3.frame, 0⟩ 8
    have hrem : FILE.remaining ⟨png_signature ++ c1.frame ++ c2.frame ++ c3.frame, 8⟩
        = c1.frame ++ c2.frame ++ c3.frame ++ [] := by
      simp [FILE.remaining, png_signature, List.append_assoc]
    have h := get_png_chunks_frames out0 _ _ (8 : Nat) SEEK_SET c1 c2 c3 [] hseek hw1 hd1.symm
      hw2 hd2.symm hw3 hd3.symm hrem
    have h8 : ((8 : Nat) : Int) = 8 := rfl
    rw [h8] at h
    rw [h]
    exact ⟨rfl, rfl⟩

theorem write_read_round_trip_witness :
    (write_PNG (some "out.png")
        (some ⟨some example_ihdr, some example_idat, some example_iend⟩)
        ⟨fun _ => none, fun _ => true, 1000⟩).1 = 1
      ∧ ∃ fp : FILE,
          fopen_rb (write_PNG (some "out.png")
            (some ⟨some example_ihdr, some example_idat, some example_iend⟩)
            ⟨fun _ => none, fun _ => true, 1000⟩).2 "out.png" = some fp
          ∧ (get_png_chunks (some mallocPNG) fp 8 SEEK_SET).1 = 1
          ∧ (get_png_chunks (some mallocPNG) fp 8 SEEK_SET).2.1
              = some ⟨some example_ihdr, some example_idat, some example_iend⟩ :=
  write_read_round_trip "out.png" ⟨fun _ => none, fun _ => true, 1000⟩ example_ihdr
    example_idat example_iend mallocPNG rfl (by decide) (by decide) (by decide) (by decide)
    (by decide) (by decide) (by decide)

/-! ## Decoding the header -/

/-- Decoding at an IHDR chunk: the result of `get_png_data_IHDR` with the shift-and-or
values still unevaluated. -/
theorem get_png_data_IHDR_frame (out0 : data_IHDR) (fp fp0 : FILE) (offset whence : Int)
    (b0 b1 b2 b3 b4 b5 b6 b7 b8 b9 b10 b11 b12 : U8) (rest : List U8)
    (hseek : fseek fp offset whence = (0, fp0))
    (hr : fp0.remaining = htonl 13 ++ IHDR_tag
      ++ [b0, b1, b2, b3, b4, b5, b6, b7, b8, b9, b10, b11, b12] ++ rest) :
    get_png_data_IHDR (some out0) fp offset whence
      = (1, some ⟨be_or b0 b1 b2 b3, be_or b4 b5 b6 b7, b8, b9, b10, b11, b12⟩,
          ⟨fp0.data, fp0.pos + 25⟩) := by
  have h1 := fread_append 4 1 fp0 (htonl 13)
    (IHDR_tag ++ [b0, b1, b2, b3, b4, b5, b6, b7, b8, b9, b10, b11, b12] ++ rest) (by decide)
    (by simpa [List.append_assoc] using hr) rfl
  have h2 := fread_append 1 CHUNK_TYPE_SIZE ⟨fp0.data, fp0.pos + 4 * 1⟩ IHDR_tag
    ([b0, b1, b2, b3, b4, b5, b6, b7, b8, b9, b10, b11, b12] ++ rest) (by decide)
    (by simpa [List.append_assoc] using h1.2) rfl
  have h3 := fread_append 1 DATA_IHDR_SIZE
    ⟨fp0.data, fp0.pos + 4 * 1 + 1 * CHUNK_TYPE_SIZE⟩
    [b0, b1, b2, b3, b4, b5, b6, b7, b8, b9, b10, b11, b12] rest (by decide) h2.2 rfl
  have hlen : ntohl (htonl 13) = DATA_IHDR_SIZE := by decide
  have hcmp : memcmp_eq IHDR_tag IHDR_tag CHUNK_TYPE_SIZE = true := by decide
  have hcur := fseek_cur ⟨fp0.data, fp0.pos + 4 * 1 + 1 * CHUNK_TYPE_SIZE + 1 * DATA_IHDR_SIZE⟩ 4
  have h4 : ((4 : Nat) : Int) = (CHUNK_CRC_SIZE : Int) := rfl
  rw [h4] at hcur
  simp only [get_png_data_IHDR, hseek, h1.1, h2.1, h3.1, hlen, hcmp, hcur, ne_eq,
    not_true_eq_false, if_false, Bool.not_true, Bool.false_or, decide_False,
    Bool.false_eq_true, List.getD_cons_zero, List.getD_cons_succ, Prod.mk.injEq, true_and,
    FILE.mk.injEq]
  simp only [CHUNK_TYPE_SIZE, DATA_IHDR_SIZE]

/-- C9: at an IHDR chunk (length 13, type "IHDR", data `b0..b12`, four crc bytes)
`get_png_data_IHDR` succeeds with the big-endian width and height (for every value of
`b0` and `b4`) and the five single-byte fields copied without validation, and the stream
is left after the crc.  On the concrete stream of the spec the three chunks are read and
the header decodes to width 100, height 50, bit depth 8, colour type 2. -/
theorem get_png_data_IHDR_decodes (out0 : data_IHDR) (fp fp0 : FILE) (offset whence : Int)
    (b0 b1 b2 b3 b4 b5 b6 b7 b8 b9 b10 b11 b12 : U8) (crcb rest : List U8)
    (hseek : fseek fp offset whence = (0, fp0)) (hcrc : crcb.length = 4)
    (hr : fp0.remaining = htonl 13 ++ IHDR_tag
      ++ [b0, b1, b2, b3, b4, b5, b6, b7, b8, b9, b10, b11, b12] ++ crcb ++ rest) :
    (get_png_data_IHDR (some out0) fp offset whence).1 = 1
      ∧ (get_png_data_IHDR (some out0) fp offset whence).2.1
          = some { width := b0.val * 2 ^ 24 + b1.val * 2 ^ 16 + b2.val * 2 ^ 8 + b3.val
                   height := b4.val * 2 ^ 24 + b5.val * 2 ^ 16 + b6.val * 2 ^ 8 + b7.val
                   bit_depth := b8
                   color_type := b9
                   compression := b10
                   filter := b11
                   interlace := b12 }
      ∧ b0.val * 2 ^ 24 + b1.val * 2 ^ 16 + b2.val * 2 ^ 8 + b3.val < 2 ^ 32
      ∧ b4.val * 2 ^ 24 + b5.val * 2 ^ 16 + b6.val * 2 ^ 8 + b7.val < 2 ^ 32
      ∧ (get_png_data_IHDR (some out0) fp offset whence).2.2.remaining = rest
      ∧ (get_png_chunks (some mallocPNG) example_stream 8 SEEK_SET).1 = 1
      ∧ (get_png_chunks (some mallocPNG) example_stream 8 SEEK_SET).2.1
          = some ⟨some example_ihdr, some example_idat, some example_iend⟩
      ∧ (get_png_data_IHDR (some out0) example_stream 8 SEEK_SET).1 = 1
      ∧ (get_png_data_IHDR (some out0) example_stream 8 SEEK_SET).2.1
          = some { width := 100, height := 50, bit_depth := 8, color_type := 2,
                   compression := 0, filter := 0, interlace := 0 } := by
  have hg := get_png_data_IHDR_frame out0 fp fp0 offset whence b0 b1 b2 b3 b4 b5 b6 b7 b8 b9
    b10 b11 b12 (crcb ++ rest) hseek (by simpa [List.append_assoc] using hr)
  have hrest : FILE.remaining ⟨fp0.data, fp0.pos + 25⟩ = rest := by
    rw [FILE.remaining_mk_add]
    show (FILE.remaining fp0).drop 25 = rest
    rw [hr]
    have hl : (htonl 13 ++ IHDR_tag
        ++ [b0, b1, b2, b3, b4, b5, b6, b7, b8, b9, b10, b11, b12] ++ crcb).length = 25 := by
      simp [htonl_length, IHDR_tag, hcrc]
    rw [← hl, List.drop_left]
  have hex := get_png_data_IHDR_frame out0 example_stream ⟨example_stream.data, 8⟩ 8 SEEK_SET
    0 0 0 100 0 0 0 50 8 2 0 0 0
    (htonl example_ihdr.crc ++ example_idat.frame ++ example_iend.frame)
    (fseek_set example_stream 8) (by decide)
  have hb0 := b0.is_lt
  have hb1 := b1.is_lt
  have hb2 := b2.is_lt
  have hb3 := b3.is_lt
  have hb4 := b4.is_lt
  have hb5 := b5.is_lt
  have hb6 := b6.is_lt
  have hb7 := b7.is_lt
  rw [hg, hex]
  refine ⟨rfl, ?_, by omega, by omega, hrest, by decide, by decide, rfl, by decide⟩
  simp only [be_or_eq]

theorem get_png_data_IHDR_decodes_witness :
    (get_png_data_IHDR (some ⟨0, 0, 0, 0, 0, 0, 0⟩)
        ⟨[0xAA] ++ (htonl 13 ++ IHDR_tag ++ [0xFF, 0, 0, 1, 0x80, 0, 0, 2, 99, 77, 5, 6, 7]
          ++ [1, 2, 3, 4] ++ [0x55]), 0⟩ 1 SEEK_SET).2.1
      = some { width := 255 * 2 ^ 24 + 0 * 2 ^ 16 + 0 * 2 ^ 8 + 1
               height := 128 * 2 ^ 24 + 0 * 2 ^ 16 + 0 * 2 ^ 8 + 2
               bit_depth := 99
               color_type := 77
               compression := 5
               filter := 6
               interlace := 7 } :=
  (get_png_data_IHDR_decodes ⟨0, 0, 0, 0, 0, 0, 0⟩
    ⟨[0xAA] ++ (htonl 13 ++ IHDR_tag ++ [0xFF, 0, 0, 1, 0x80, 0, 0, 2, 99, 77, 5, 6, 7]
      ++ [1, 2, 3, 4] ++ [0x55]), 0⟩
    ⟨[0xAA] ++ (htonl 13 ++ IHDR_tag ++ [0xFF, 0, 0, 1, 0x80, 0, 0, 2, 99, 77, 5, 6, 7]
      ++ [1, 2, 3, 4] ++ [0x55]), 1⟩
    1 SEEK_SET 0xFF 0 0 1 0x80 0 0 2 99 77 5 6 7 [1, 2, 3, 4] [0x55]
    (by decide) (by decide) (by decide)).2.1


/-- Whenever `get_png_data_IHDR` returns 0 the record `out` points to is untouched. -/
theorem get_png_data_IHDR_zero_unchanged (out : Option data_IHDR) (fp : FILE)
    (offset whence : Int) (h : (get_png_data_IHDR out fp offset whence).1 = 0) :
    (get_png_data_IHDR out fp offset whence).2.1 = out := by
  cases out with
  | none => rfl
  | some o =>
    revert h
    unfold get_png_data_IHDR
    simp only [fread]
    rcases fseek fp offset whence with ⟨rc, fp1⟩
    simp only []
    split_ifs <;> simp

/-- A chunk whose type is not "IHDR" or whose length field is not 13 is rejected. -/
theorem get_png_data_IHDR_mismatch (out : Option data_IHDR) (fp fp0 : FILE)
    (offset whence : Int) (lenb t rest : List U8)
    (hseek : fseek fp offset whence = (0, fp0))
    (hr : fp0.remaining = lenb ++ t ++ rest) (hl : lenb.length = 4) (ht : t.length = 4)
    (hbad : t ≠ IHDR_tag ∨ ntohl lenb ≠ 13) :
    (get_png_data_IHDR out fp offset whence).1 = 0 := by
  cases out with
  | none => rfl
  | some o =>
    have h1 := fread_append 4 1 fp0 lenb (t ++ rest) (by decide)
      (by simpa [List.append_assoc] using hr) (by simp [hl])
    have h2 := fread_append 1 CHUNK_TYPE_SIZE ⟨fp0.data, fp0.pos + 4 * 1⟩ t rest (by decide)
      h1.2 (by simp [ht, CHUNK_TYPE_SIZE])
    have hcond : (!(memcmp_eq t IHDR_tag CHUNK_TYPE_SIZE) || decide (ntohl lenb ≠ DATA_IHDR_SIZE))
        = true := by
      rcases hbad with hb | hb
      · have : memcmp_eq t IHDR_tag CHUNK_TYPE_SIZE = false := by
          have e1 : t.take 4 = t := by rw [← ht]; exact List.take_length t
          have e2 : IHDR_tag.take 4 = IHDR_tag := rfl
          simp [memcmp_eq, CHUNK_TYPE_SIZE, e1, e2, hb]
        simp [this]
      · simp [DATA_IHDR_SIZE, hb]
    simp only [get_png_data_IHDR, hseek, h1.1, h2.1, ne_eq, not_true_eq_false, if_false]
    rw [if_pos (by simpa using hcond)]


/-- C10: at a chunk whose type is not exactly "IHDR", and at a chunk whose length field is
not exactly 13, `get_png_data_IHDR` returns 0; it only ever returns 0 or 1; and on every
call that returns 0 the caller's record is left as it was. -/
theorem get_png_data_IHDR_rejects (out : Option data_IHDR) (fp fp0 : FILE)
    (offset whence : Int) (lenb t rest : List U8)
    (hseek : fseek fp offset whence = (0, fp0))
    (hr : fp0.remaining = lenb ++ t ++ rest) (hl : lenb.length = 4) (ht : t.length = 4) :
    (t ≠ IHDR_tag → (get_png_data_IHDR out fp offset whence).1 = 0)
      ∧ (ntohl lenb ≠ 13 → (get_png_data_IHDR out fp offset whence).1 = 0)
      ∧ (∀ (o : Option data_IHDR) (f : FILE) (off wh : Int),
          ((get_png_data_IHDR o f off wh).1 = 0 ∨ (get_png_data_IHDR o f off wh).1 = 1)
          ∧ ((get_png_data_IHDR o f off wh).1 = 0 → (get_png_data_IHDR o f off wh).2.1 = o)) := by
  refine ⟨fun h => get_png_data_IHDR_mismatch out fp fp0 offset whence lenb t rest hseek hr hl ht
      (Or.inl h),
    fun h => get_png_data_IHDR_mismatch out fp fp0 offset whence lenb t rest hseek hr hl ht
      (Or.inr h), ?_⟩
  intro o f off wh
  refine ⟨?_, get_png_data_IHDR_zero_unchanged o f off wh⟩
  cases o with
  | none => exact Or.inl rfl
  | some o1 =>
    unfold get_png_data_IHDR
    simp only [fread]
    rcases fseek f off wh with ⟨rc, fp1⟩
    simp only []
    split_ifs <;> simp

theorem get_png_data_IHDR_rejects_witness :
    (get_png_data_IHDR (some ⟨1, 2, 3, 4, 5, 6, 7⟩) example_stream 33 SEEK_SET).1 = 0
      ∧ (get_png_data_IHDR (some ⟨1, 2, 3, 4, 5, 6, 7⟩)
          ⟨htonl 10 ++ IHDR_tag ++ [0, 0, 0, 100, 0, 0, 0, 50, 8, 2, 0, 0, 0, 0], 0⟩
          0 SEEK_CUR).1 = 0
      ∧ (get_png_data_IHDR (some ⟨1, 2, 3, 4, 5, 6, 7⟩) example_stream 33 SEEK_SET).2.1
          = some ⟨1, 2, 3, 4, 5, 6, 7⟩ :=
  have h1 := get_png_data_IHDR_rejects (some ⟨1, 2, 3, 4, 5, 6, 7⟩) example_stream
    ⟨example_stream.data, 33⟩ 33 SEEK_SET (htonl 2) IDAT_tag
    ([0x01, 0x02] ++ htonl example_idat.crc ++ example_iend.frame)
    (by decide) (by decide) (by decide) (by decide)
  have h2 := get_png_data_IHDR_rejects (some ⟨1, 2, 3, 4, 5, 6, 7⟩)
    ⟨htonl 10 ++ IHDR_tag ++ [0, 0, 0, 100, 0, 0, 0, 50, 8, 2, 0, 0, 0, 0], 0⟩
    ⟨htonl 10 ++ IHDR_tag ++ [0, 0, 0, 100, 0, 0, 0, 50, 8, 2, 0, 0, 0, 0], 0⟩
    0 SEEK_CUR (htonl 10) IHDR_tag [0, 0, 0, 100, 0, 0, 0, 50, 8, 2, 0, 0, 0, 0]
    (by decide) (by decide) (by decide) (by decide)
  ⟨h1.1 (by decide), h2.2.1 (by decide), (h1.2.2 _ _ _ _).2 (h1.1 (by decide))⟩

/-! ## More lemmas on `get_chunk` -/

/-- A failed `get_chunk` has read the stream to its end. -/
theorem get_chunk_none_remaining (fp : FILE) (h : (get_chunk fp).1 = none) :
    (get_chunk fp).2.remaining = [] := by
  apply List.eq_nil_of_length_eq_zero
  revert h
  unfold get_chunk get_chunk_alloc fread
  simp only [CHUNK_TYPE_SIZE, FILE.remaining_mk_add, List.length_take, List.length_drop,
    Bool.not_true, Bool.false_eq_true, if_false]
  generalize ntohl (List.take (4 * 1) fp.remaining) = len
  generalize hL : fp.remaining.length = L
  simp only [Nat.mul_one, Nat.one_mul, Nat.div_one, OfNat.ofNat_ne_zero, one_ne_zero,
    if_false, ne_eq]
  split_ifs <;>
    simp only [FILE.remaining_mk_add, List.length_drop, List.length_take, hL, reduceCtorEq,
      not_false_eq_true, forall_true_left, not_true_eq_false, false_implies,
      IsEmpty.forall_iff] <;>
    try omega

/-- At the end of the stream `get_chunk` fails. -/
theorem get_chunk_of_remaining_nil (fp : FILE) (h : fp.remaining = []) :
    (get_chunk fp).1 = none := by
  have hiff := get_chunk_isSome_iff fp
  rw [h] at hiff
  cases hg : (get_chunk fp).1 with
  | none => rfl
  | some c =>
    rw [hg] at hiff
    simp at hiff

/-- After a failed `get_chunk` the next one fails as well. -/
theorem get_chunk_none_next (fp : FILE) (h : (get_chunk fp).1 = none) :
    (get_chunk (get_chunk fp).2).1 = none :=
  get_chunk_of_remaining_nil _ (get_chunk_none_remaining fp h)

/-- The chunk `get_chunk` returns and the bytes it leaves depend only on the bytes that
remain in the stream. -/
theorem get_chunk_congr (fp fq : FILE) (h : fp.remaining = fq.remaining) :
    (get_chunk fp).1 = (get_chunk fq).1
      ∧ (get_chunk fp).2.remaining = (get_chunk fq).2.remaining := by
  by_cases hle : 12 + ntohl (fp.remaining.take 4) ≤ fp.remaining.length
  · have hle2 : 12 + ntohl (fq.remaining.take 4) ≤ fq.remaining.length := by rw [← h]; exact hle
    rw [get_chunk_of_le fp hle, get_chunk_of_le fq hle2]
    simp only [FILE.remaining_mk_add]
    constructor
    · rw [h]
    · show List.drop _ fp.remaining = List.drop _ fq.remaining
      rw [h]
  · have hle2 : ¬ 12 + ntohl (fq.remaining.take 4) ≤ fq.remaining.length := by
      rw [← h]; exact hle
    have n1 : (get_chunk fp).1 = none := by
      rw [← get_chunk_isSome_iff] at hle
      simpa using hle
    have n2 : (get_chunk fq).1 = none := by
      rw [← get_chunk_isSome_iff] at hle2
      simpa using hle2
    rw [n1, n2, get_chunk_none_remaining fp n1, get_chunk_none_remaining fq n2]
    exact ⟨rfl, rfl⟩

/-- After a successful seek `get_png_chunks` is three `get_chunk` calls in a row, each
stored in its slot, and the return value 1 exactly when none of them is `NULL`. -/
theorem get_png_chunks_eq (out0 : simple_PNG) (fp fp0 : FILE) (offset whence : Int)
    (hseek : fseek fp offset whence = (0, fp0)) :
    get_png_chunks (some out0) fp offset whence
      = (if (get_chunk fp0).1.isNone || (get_chunk (get_chunk fp0).2).1.isNone
            || (get_chunk (get_chunk (get_chunk fp0).2).2).1.isNone then 0 else 1,
          some ⟨(get_chunk fp0).1, (get_chunk (get_chunk fp0).2).1,
            (get_chunk (get_chunk (get_chunk fp0).2).2).1⟩,
          (get_chunk (get_chunk (get_chunk fp0).2).2).2) := by
  simp only [get_png_chunks, get_png_chunks_alloc, get_chunk_alloc_true, hseek, ne_eq,
    not_true_eq_false, if_false]
  split_ifs <;> rfl

/-! ## Failure results of the header decoder -/

/-- With fewer than 21 bytes left after the seek, `get_png_data_IHDR` returns 0. -/
theorem get_png_data_IHDR_short (out : Option data_IHDR) (fp fp0 : FILE) (offset whence : Int)
    (hseek : fseek fp offset whence = (0, fp0)) (hlen : fp0.remaining.length < 4 + 4 + 13) :
    (get_png_data_IHDR out fp offset whence).1 = 0 := by
  cases out with
  | none => rfl
  | some o =>
    revert hlen
    unfold get_png_data_IHDR fread
    simp only [hseek, CHUNK_TYPE_SIZE, DATA_IHDR_SIZE, FILE.remaining_mk_add, List.length_take,
      List.length_drop]
    generalize fp0.remaining.length = L
    simp only [Nat.mul_one, Nat.one_mul, Nat.div_one, OfNat.ofNat_ne_zero, one_ne_zero,
      if_false, ne_eq, not_true_eq_false]
    intro hL
    split_ifs <;> first | rfl | omega

/-- C11, refuted as stated: a chunk of type "IDAT", an "IHDR" chunk with a 10-byte payload
and an IHDR chunk cut off after 6 data bytes all give the same result, the return value 0
with the record untouched. -/
theorem get_png_data_IHDR_failures_coincide :
    (get_png_data_IHDR (some ⟨1, 2, 3, 4, 5, 6, 7⟩) example_stream 33 SEEK_SET).1 = 0
      ∧ (get_png_data_IHDR (some ⟨1, 2, 3, 4, 5, 6, 7⟩) example_ten_byte_ihdr 0 SEEK_SET).1 = 0
      ∧ (get_png_data_IHDR (some ⟨1, 2, 3, 4, 5, 6, 7⟩) example_six_of_thirteen 0 SEEK_SET).1 = 0
      ∧ (get_png_data_IHDR (some ⟨1, 2, 3, 4, 5, 6, 7⟩) example_stream 33 SEEK_SET).2.1
          = (get_png_data_IHDR (some ⟨1, 2, 3, 4, 5, 6, 7⟩) example_ten_byte_ihdr 0
              SEEK_SET).2.1
      ∧ (get_png_data_IHDR (some ⟨1, 2, 3, 4, 5, 6, 7⟩) example_stream 33 SEEK_SET).2.1
          = (get_png_data_IHDR (some ⟨1, 2, 3, 4, 5, 6, 7⟩) example_six_of_thirteen 0
              SEEK_SET).2.1
      ∧ (example_stream.data.drop 33).take 8 = htonl 2 ++ IDAT_tag
      ∧ example_ten_byte_ihdr.data.take 8 = htonl 10 ++ IHDR_tag := by
  refine ⟨by decide, by decide, by decide, by decide, by decide, by decide, by decide⟩

/-- C11, amended: at a chunk of type "IDAT", at an "IHDR" chunk whose length field is 10,
and on a stream that ends before the 21 bytes a header needs, `get_png_data_IHDR` gives
one and the same result: the return value 0, with the record left as it was. -/
theorem get_png_data_IHDR_one_failure_value (out : Option data_IHDR)
    (fa fa0 fb fb0 fc fc0 : FILE) (offa wha offb whb offc whc : Int)
    (lena resta restb : List U8)
    (hsa : fseek fa offa wha = (0, fa0)) (hla : lena.length = 4)
    (hra : fa0.remaining = lena ++ IDAT_tag ++ resta)
    (hsb : fseek fb offb whb = (0, fb0))
    (hrb : fb0.remaining = htonl 10 ++ IHDR_tag ++ restb)
    (hsc : fseek fc offc whc = (0, fc0)) (hrc : fc0.remaining.length < 4 + 4 + 13) :
    ((get_png_data_IHDR out fa offa wha).1 = 0 ∧ (get_png_data_IHDR out fa offa wha).2.1 = out)
      ∧ ((get_png_data_IHDR out fb offb whb).1 = 0
          ∧ (get_png_data_IHDR out fb offb whb).2.1 = out)
      ∧ ((get_png_data_IHDR out fc offc whc).1 = 0
          ∧ (get_png_data_IHDR out fc offc whc).2.1 = out) := by
  have ha := get_png_data_IHDR_mismatch out fa fa0 offa wha lena IDAT_tag resta hsa hra hla rfl
    (Or.inl (by decide))
  have hb := get_png_data_IHDR_mismatch out fb fb0 offb whb (htonl 10) IHDR_tag restb hsb hrb
    rfl rfl (Or.inr (by decide))
  have hc := get_png_data_IHDR_short out fc fc0 offc whc hsc hrc
  exact ⟨⟨ha, get_png_data_IHDR_zero_unchanged _ _ _ _ ha⟩,
    ⟨hb, get_png_data_IHDR_zero_unchanged _ _ _ _ hb⟩,
    ⟨hc, get_png_data_IHDR_zero_unchanged _ _ _ _ hc⟩⟩

theorem get_png_data_IHDR_one_failure_value_witness :
    (get_png_data_IHDR (some ⟨1, 2, 3, 4, 5, 6, 7⟩) example_stream 33 SEEK_SET).2.1
        = some ⟨1, 2, 3, 4, 5, 6, 7⟩
      ∧ (get_png_data_IHDR (some ⟨1, 2, 3, 4, 5, 6, 7⟩) example_ten_byte_ihdr 0 SEEK_SET).2.1
        = some ⟨1, 2, 3, 4, 5, 6, 7⟩
      ∧ (get_png_data_IHDR (some ⟨1, 2, 3, 4, 5, 6, 7⟩) example_six_of_thirteen 0 SEEK_SET).1
        = 0 :=
  have h := get_png_data_IHDR_one_failure_value (some ⟨1, 2, 3, 4, 5, 6, 7⟩)
    example_stream ⟨example_stream.data, 33⟩ example_ten_byte_ihdr example_ten_byte_ihdr
    example_six_of_thirteen example_six_of_thirteen 33 SEEK_SET 0 SEEK_SET 0 SEEK_SET
    (htonl 2) ([0x01, 0x02] ++ htonl example_idat.crc ++ example_iend.frame)
    ([0, 0, 0, 100, 0, 0, 0, 50, 8, 2]
      ++ htonl (mk_chunk IHDR_tag [0, 0, 0, 100, 0, 0, 0, 50, 8, 2]).crc)
    (by decide) (by decide) (by decide) (by decide) (by decide) (by decide) (by decide)
  ⟨h.1.2, h.2.1.2, h.2.2.1⟩

/-! ## Reading a container -/

/-- C12, refuted as stated: on a stream whose first 8 bytes are zero, `is_png` rejects
those bytes, yet `get_png_chunks` at offset 8 returns 1 and stores the three chunks. -/
theorem get_png_chunks_ignores_signature :
    is_png (example_bad_signature.data.take 8) 8 = 0
      ∧ (get_png_chunks (some mallocPNG) example_bad_signature 8 SEEK_SET).1 = 1
      ∧ (get_png_chunks (some mallocPNG) example_bad_signature 8 SEEK_SET).2.1
          = some ⟨some example_ihdr, some example_idat, some example_iend⟩ := by
  refine ⟨by decide, by decide, by decide⟩

/-- C12, amended: `get_png_chunks` does not read or check the signature.  Called at offset
8 it reads the three chunks that follow the first 8 bytes, and neither its return value
nor the chunks it stores depend on what those 8 bytes are. -/
theorem get_png_chunks_signature_independent (out0 : simple_PNG) (sig1 sig2 body : List U8)
    (h1 : sig1.length = 8) (h2 : sig2.length = 8) :
    (get_png_chunks (some out0) ⟨sig1 ++ body, 0⟩ 8 SEEK_SET).1
        = (get_png_chunks (some out0) ⟨sig2 ++ body, 0⟩ 8 SEEK_SET).1
      ∧ (get_png_chunks (some out0) ⟨sig1 ++ body, 0⟩ 8 SEEK_SET).2.1
        = (get_png_chunks (some out0) ⟨sig2 ++ body, 0⟩ 8 SEEK_SET).2.1 := by
  have hr1 : FILE.remaining ⟨sig1 ++ body, 8⟩ = body := by
    simp only [FILE.remaining]; rw [← h1, List.drop_left]
  have hr2 : FILE.remaining ⟨sig2 ++ body, 8⟩ = body := by
    simp only [FILE.remaining]; rw [← h2, List.drop_left]
  have e1 := get_png_chunks_eq out0 ⟨sig1 ++ body, 0⟩ ⟨sig1 ++ body, 8⟩ 8 SEEK_SET
    (fseek_set _ 8)
  have e2 := get_png_chunks_eq out0 ⟨sig2 ++ body, 0⟩ ⟨sig2 ++ body, 8⟩ 8 SEEK_SET
    (fseek_set _ 8)
  obtain ⟨a1, a2⟩ := get_chunk_congr ⟨sig1 ++ body, 8⟩ ⟨sig2 ++ body, 8⟩ (hr1.trans hr2.symm)
  obtain ⟨b1, b2⟩ := get_chunk_congr _ _ a2
  obtain ⟨c1, _⟩ := get_chunk_congr _ _ b2
  rw [e1, e2]
  simp only [a1, b1, c1, and_self]

theorem get_png_chunks_signature_independent_witness :
    (get_png_chunks (some mallocPNG) example_bad_signature 8 SEEK_SET).1
        = (get_png_chunks (some mallocPNG) example_stream 8 SEEK_SET).1
      ∧ (get_png_chunks (some mallocPNG) example_bad_signature 8 SEEK_SET).2.1
        = (get_png_chunks (some mallocPNG) example_stream 8 SEEK_SET).2.1 :=
  get_png_chunks_signature_independent mallocPNG [0, 0, 0, 0, 0, 0, 0, 0] png_signature
    (example_ihdr.frame ++ example_idat.frame ++ example_iend.frame) (by decide) (by decide)

/-- C13: after a successful seek, `get_png_chunks` returns 1 exactly when three `get_chunk`
calls in a row from that position all return a chunk; it only returns 0 or 1; on success
the first chunk is in `p_IHDR`, the second in `p_IDAT`, the third in `p_IEND` and all three
are present; and three framed chunks of any types at all are accepted. -/
theorem get_png_chunks_iff_three_chunks (out0 : simple_PNG) (fp fp0 : FILE)
    (offset whence : Int) (hseek : fseek fp offset whence = (0, fp0)) :
    ((get_png_chunks (some out0) fp offset whence).1 = 1 ↔
        (get_chunk fp0).1.isSome = true
          ∧ (get_chunk (get_chunk fp0).2).1.isSome = true
          ∧ (get_chunk (get_chunk (get_chunk fp0).2).2).1.isSome = true)
      ∧ ((get_png_chunks (some out0) fp offset whence).1 = 0
          ∨ (get_png_chunks (some out0) fp offset whence).1 = 1)
      ∧ ((get_png_chunks (some out0) fp offset whence).1 = 1 →
          ∃ c1 c2 c3 : chunk,
            (get_chunk fp0).1 = some c1
              ∧ (get_chunk (get_chunk fp0).2).1 = some c2
              ∧ (get_chunk (get_chunk (get_chunk fp0).2).2).1 = some c3
              ∧ (get_png_chunks (some out0) fp offset whence).2.1
                  = some ⟨some c1, some c2, some c3⟩)
      ∧ (∀ (c1 c2 c3 : chunk) (rest : List U8),
          c1.WellTyped → c1.p_data.length = c1.length →
          c2.WellTyped → c2.p_data.length = c2.length →
          c3.WellTyped → c3.p_data.length = c3.length →
          fp0.remaining = c1.frame ++ c2.frame ++ c3.frame ++ rest →
          (get_png_chunks (some out0) fp offset whence).1 = 1) := by
  rw [get_png_chunks_eq out0 fp fp0 offset whence hseek]
  refine ⟨?_, ?_, ?_, ?_⟩
  · cases (get_chunk fp0).1 <;> cases (get_chunk (get_chunk fp0).2).1 <;>
      cases (get_chunk (get_chunk (get_chunk fp0).2).2).1 <;> simp
  · split_ifs <;> simp
  · cases h1 : (get_chunk fp0).1 <;> cases h2 : (get_chunk (get_chunk fp0).2).1 <;>
      cases h3 : (get_chunk (get_chunk (get_chunk fp0).2).2).1 <;> simp
  · intro c1 c2 c3 rest hw1 hd1 hw2 hd2 hw3 hd3 hr
    rw [← get_png_chunks_eq out0 fp fp0 offset whence hseek,
      get_png_chunks_frames out0 fp fp0 offset whence c1 c2 c3 rest hseek hw1 hd1 hw2 hd2
        hw3 hd3 hr]

theorem get_png_chunks_iff_three_chunks_witness :
    ((get_png_chunks (some mallocPNG) example_stream 8 SEEK_SET).1 = 1 ↔
        (get_chunk ⟨example_stream.data, 8⟩).1.isSome = true
          ∧ (get_chunk (get_chunk ⟨example_stream.data, 8⟩).2).1.isSome = true
          ∧ (get_chunk (get_chunk (get_chunk ⟨example_stream.data, 8⟩).2).2).1.isSome = true)
      ∧ (get_png_chunks (some mallocPNG)
          ⟨example_idat.frame ++ example_iend.frame ++ example_ihdr.frame ++ [9], 0⟩ 0
          SEEK_SET).1 = 1 :=
  ⟨(get_png_chunks_iff_three_chunks mallocPNG example_stream ⟨example_stream.data, 8⟩ 8
      SEEK_SET (by decide)).1,
   (get_png_chunks_iff_three_chunks mallocPNG
      ⟨example_idat.frame ++ example_iend.frame ++ example_ihdr.frame ++ [9], 0⟩
      ⟨example_idat.frame ++ example_iend.frame ++ example_ihdr.frame ++ [9], 0⟩ 0
      SEEK_SET (by decide)).2.2.2 example_idat example_iend example_ihdr [9]
      (by decide) (by decide) (by decide) (by decide) (by decide) (by decide) (by decide)⟩

/-- C14, refuted as stated: on a complete IHDR chunk followed by a truncated IDAT chunk
`get_png_chunks` returns 0 and leaves the decoded IHDR chunk in the `p_IHDR` slot of a
container that was empty before the call. -/
theorem get_png_chunks_leaves_partial_container :
    (get_png_chunks (some mallocPNG) example_truncated_second 0 SEEK_SET).1 = 0
      ∧ (get_png_chunks (some mallocPNG) example_truncated_second 0 SEEK_SET).2.1
          = some ⟨some example_ihdr, none, none⟩ := by
  refine ⟨by decide, by decide⟩

/-- A `get_chunk` call with any allocation outcomes either behaves as with both
allocations succeeding, or returns `NULL` and leaves the stream where it was or at least 8
bytes further on (or at its end). -/
theorem get_chunk_alloc_cases (a b : Bool) (fp : FILE) :
    get_chunk_alloc a b fp = get_chunk fp
      ∨ ((get_chunk_alloc a b fp).1 = none
          ∧ ((get_chunk_alloc a b fp).2 = fp
              ∨ (get_chunk_alloc a b fp).2.remaining.length ≤ fp.remaining.length - 8)) := by
  cases a with
  | false => exact Or.inr ⟨rfl, Or.inl rfl⟩
  | true =>
    cases b with
    | true => exact Or.inl rfl
    | false =>
      right
      unfold get_chunk_alloc fread
      simp only [CHUNK_TYPE_SIZE, FILE.remaining_mk_add, List.length_take, List.length_drop,
        Bool.not_true, Bool.not_false, Bool.false_eq_true, if_false, if_true]
      generalize hL : fp.remaining.length = L
      simp only [Nat.mul_one, Nat.one_mul, Nat.div_one, OfNat.ofNat_ne_zero, one_ne_zero,
        if_false, ne_eq]
      split_ifs <;>
        simp only [FILE.remaining_mk_add, List.length_drop, List.length_take, hL, true_and] <;>
        right <;> omega

/-- Where no whole chunk is left, `get_chunk` returns `NULL` whatever the allocations do. -/
theorem get_chunk_alloc_truncated (a b : Bool) (fp : FILE)
    (h : fp.remaining.length < 12 + ntohl (fp.remaining.take 4)) :
    (get_chunk_alloc a b fp).1 = none := by
  rcases get_chunk_alloc_cases a b fp with h1 | h1
  · rw [h1]
    have hiff := get_chunk_isSome_iff fp
    cases hg : (get_chunk fp).1 with
    | none => rfl
    | some c => rw [hg] at hiff; simp at hiff; omega
  · exact h1.1

/-- Where no whole chunk is left and fewer than 20 bytes remain, the same holds after a
`get_chunk` call. -/
theorem get_chunk_alloc_truncated_next (a b : Bool) (fp : FILE)
    (h : fp.remaining.length < 12 + ntohl (fp.remaining.take 4))
    (h20 : fp.remaining.length < 20) :
    (get_chunk_alloc a b fp).2.remaining.length
        < 12 + ntohl ((get_chunk_alloc a b fp).2.remaining.take 4)
      ∧ (get_chunk_alloc a b fp).2.remaining.length < 20 := by
  rcases get_chunk_alloc_cases a b fp with h1 | ⟨_, h1 | h1⟩
  · have hnone : (get_chunk fp).1 = none := by
      have := get_chunk_alloc_truncated true true fp h
      rwa [get_chunk_alloc_true] at this
    rw [h1, get_chunk_none_remaining fp hnone]
    simp
  · rw [h1]; exact ⟨h, h20⟩
  · constructor <;> omega

/-- After a successful seek `get_png_chunks` is three `get_chunk` calls in a row, for any
allocation outcomes. -/
theorem get_png_chunks_alloc_eq (m1 m2 m3 : Bool × Bool) (out0 : simple_PNG) (fp fp0 : FILE)
    (offset whence : Int) (hseek : fseek fp offset whence = (0, fp0)) :
    get_png_chunks_alloc m1 m2 m3 (some out0) fp offset whence
      = (if (get_chunk_alloc m1.1 m1.2 fp0).1.isNone
            || (get_chunk_alloc m2.1 m2.2 (get_chunk_alloc m1.1 m1.2 fp0).2).1.isNone
            || (get_chunk_alloc m3.1 m3.2
                (get_chunk_alloc m2.1 m2.2 (get_chunk_alloc m1.1 m1.2 fp0).2).2).1.isNone
          then 0 else 1,
          some ⟨(get_chunk_alloc m1.1 m1.2 fp0).1,
            (get_chunk_alloc m2.1 m2.2 (get_chunk_alloc m1.1 m1.2 fp0).2).1,
            (get_chunk_alloc m3.1 m3.2
              (get_chunk_alloc m2.1 m2.2 (get_chunk_alloc m1.1 m1.2 fp0).2).2).1⟩,
          (get_chunk_alloc m3.1 m3.2
            (get_chunk_alloc m2.1 m2.2 (get_chunk_alloc m1.1 m1.2 fp0).2).2).2) := by
  simp only [get_png_chunks_alloc, hseek, ne_eq, not_true_eq_false, if_false]
  split_ifs <;> rfl

/-- C14, amended: when `get_png_chunks` fails after a successful seek, whatever its
allocations do, every slot holds the result of its own `get_chunk` call and at least one
slot is `NULL`; a first chunk that was read completely stays in `p_IHDR`; and no slot is
populated when the stream ends inside the first chunk with fewer than 20 bytes left, as
with 6 of 13 IHDR data bytes. -/
theorem get_png_chunks_failure_slots (m1 m2 m3 : Bool × Bool) (out0 : simple_PNG)
    (fp fp0 : FILE) (offset whence : Int) (hseek : fseek fp offset whence = (0, fp0))
    (hfail : (get_png_chunks_alloc m1 m2 m3 (some out0) fp offset whence).1 = 0) :
    ∃ png : simple_PNG,
      (get_png_chunks_alloc m1 m2 m3 (some out0) fp offset whence).2.1 = some png
        ∧ png.p_IHDR = (get_chunk_alloc m1.1 m1.2 fp0).1
        ∧ png.p_IDAT = (get_chunk_alloc m2.1 m2.2 (get_chunk_alloc m1.1 m1.2 fp0).2).1
        ∧ png.p_IEND = (get_chunk_alloc m3.1 m3.2
            (get_chunk_alloc m2.1 m2.2 (get_chunk_alloc m1.1 m1.2 fp0).2).2).1
        ∧ (png.p_IHDR = none ∨ png.p_IDAT = none ∨ png.p_IEND = none)
        ∧ (∀ (c : chunk) (rest : List U8), m1 = (true, true) → c.WellTyped →
            c.p_data.length = c.length → fp0.remaining = c.frame ++ rest →
            png.p_IHDR = some c)
        ∧ (fp0.remaining.length < 12 + ntohl (fp0.remaining.take 4) →
            fp0.remaining.length < 20 → png = ⟨none, none, none⟩) := by
  rw [get_png_chunks_alloc_eq m1 m2 m3 out0 fp fp0 offset whence hseek] at hfail ⊢
  refine ⟨_, rfl, rfl, rfl, rfl, ?_, ?_, ?_⟩
  · show (get_chunk_alloc m1.1 m1.2 fp0).1 = none
      ∨ (get_chunk_alloc m2.1 m2.2 (get_chunk_alloc m1.1 m1.2 fp0).2).1 = none
      ∨ (get_chunk_alloc m3.1 m3.2
          (get_chunk_alloc m2.1 m2.2 (get_chunk_alloc m1.1 m1.2 fp0).2).2).1 = none
    revert hfail
    cases (get_chunk_alloc m1.1 m1.2 fp0).1 <;>
      cases (get_chunk_alloc m2.1 m2.2 (get_chunk_alloc m1.1 m1.2 fp0).2).1 <;>
      cases (get_chunk_alloc m3.1 m3.2
        (get_chunk_alloc m2.1 m2.2 (get_chunk_alloc m1.1 m1.2 fp0).2).2).1 <;> simp
  · intro c rest hm hw hd hr
    show (get_chunk_alloc m1.1 m1.2 fp0).1 = some c
    rw [hm]
    show (get_chunk fp0).1 = some c
    rw [(get_chunk_frame fp0 c.length c.type c.p_data c.crc rest hw.1 hw.2.1 hd hw.2.2
      (by simpa [chunk.frame, List.append_assoc] using hr)).1]
  · intro htr h20
    have n1 := get_chunk_alloc_truncated m1.1 m1.2 fp0 htr
    obtain ⟨htr1, h201⟩ := get_chunk_alloc_truncated_next m1.1 m1.2 fp0 htr h20
    have n2 := get_chunk_alloc_truncated m2.1 m2.2 _ htr1
    obtain ⟨htr2, _⟩ := get_chunk_alloc_truncated_next m2.1 m2.2 _ htr1 h201
    have n3 := get_chunk_alloc_truncated m3.1 m3.2 _ htr2
    rw [n1, n2, n3]

theorem get_png_chunks_failure_slots_witness :
    ∃ png : simple_PNG,
      (get_png_chunks_alloc (true, false) (false, true) (true, true) (some mallocPNG)
          example_six_of_thirteen 0 SEEK_SET).2.1 = some png
        ∧ png.p_IHDR = (get_chunk_alloc true false example_six_of_thirteen).1
        ∧ png.p_IDAT = (get_chunk_alloc false true
            (get_chunk_alloc true false example_six_of_thirteen).2).1
        ∧ png.p_IEND = (get_chunk_alloc true true
            (get_chunk_alloc false true
              (get_chunk_alloc true false example_six_of_thirteen).2).2).1
        ∧ (png.p_IHDR = none ∨ png.p_IDAT = none ∨ png.p_IEND = none)
        ∧ (∀ (c : chunk) (rest : List U8), ((true, false) : Bool × Bool) = (true, true) →
            c.WellTyped → c.p_data.length = c.length →
            example_six_of_thirteen.remaining = c.frame ++ rest → png.p_IHDR = some c)
        ∧ (example_six_of_thirteen.remaining.length
              < 12 + ntohl (example_six_of_thirteen.remaining.take 4) →
            example_six_of_thirteen.remaining.length < 20 → png = ⟨none, none, none⟩) :=
  get_png_chunks_failure_slots (true, false) (false, true) (true, true) mallocPNG
    example_six_of_thirteen example_six_of_thirteen 0 SEEK_SET (by decide) (by decide)

/-! ## The two readers of an IHDR chunk -/

/-- C19: on a stream that ends right after the 13 data bytes of an IHDR chunk, with no crc
bytes, `get_png_data_IHDR` returns 1 and fills the record, while `get_chunk` from the same
position returns no chunk. -/
theorem IHDR_readers_disagree_without_crc (out0 : data_IHDR) (fp fp0 : FILE)
    (offset whence : Int) (b0 b1 b2 b3 b4 b5 b6 b7 b8 b9 b10 b11 b12 : U8)
    (hseek : fseek fp offset whence = (0, fp0))
    (hr : fp0.remaining = htonl 13 ++ IHDR_tag
      ++ [b0, b1, b2, b3, b4, b5, b6, b7, b8, b9, b10, b11, b12]) :
    (get_png_data_IHDR (some out0) fp offset whence).1 = 1
      ∧ (get_png_data_IHDR (some out0) fp offset whence).2.1
          = some { width := b0.val * 2 ^ 24 + b1.val * 2 ^ 16 + b2.val * 2 ^ 8 + b3.val
                   height := b4.val * 2 ^ 24 + b5.val * 2 ^ 16 + b6.val * 2 ^ 8 + b7.val
                   bit_depth := b8
                   color_type := b9
                   compression := b10
                   filter := b11
                   interlace := b12 }
      ∧ (get_chunk fp0).1 = none := by
  have hg := get_png_data_IHDR_frame out0 fp fp0 offset whence b0 b1 b2 b3 b4 b5 b6 b7 b8 b9
    b10 b11 b12 [] hseek (by simpa using hr)
  rw [hg]
  refine ⟨rfl, by simp only [be_or_eq], ?_⟩
  have hiff := get_chunk_isSome_iff fp0
  rw [hr] at hiff
  have hlen : ntohl (List.take 4 (htonl 13 ++ IHDR_tag
      ++ [b0, b1, b2, b3, b4, b5, b6, b7, b8, b9, b10, b11, b12])) = 13 := by
    have ht : List.take 4 (htonl 13 ++ IHDR_tag
        ++ [b0, b1, b2, b3, b4, b5, b6, b7, b8, b9, b10, b11, b12]) = htonl 13 := by
      simp [htonl]
    rw [ht]
    decide
  rw [hlen] at hiff
  cases hc : (get_chunk fp0).1 with
  | none => rfl
  | some c =>
    rw [hc] at hiff
    simp [htonl, IHDR_tag] at hiff

theorem IHDR_readers_disagree_without_crc_witness :
    (get_png_data_IHDR (some ⟨0, 0, 0, 0, 0, 0, 0⟩) example_no_crc 0 SEEK_SET).1 = 1
      ∧ (get_png_data_IHDR (some ⟨0, 0, 0, 0, 0, 0, 0⟩) example_no_crc 0 SEEK_SET).2.1
          = some { width := 0 * 2 ^ 24 + 0 * 2 ^ 16 + 0 * 2 ^ 8 + 100
                   height := 0 * 2 ^ 24 + 0 * 2 ^ 16 + 0 * 2 ^ 8 + 50
                   bit_depth := 8
                   color_type := 2
                   compression := 0
                   filter := 0
                   interlace := 0 }
      ∧ (get_chunk example_no_crc).1 = none :=
  IHDR_readers_disagree_without_crc ⟨0, 0, 0, 0, 0, 0, 0⟩ example_no_crc example_no_crc 0
    SEEK_SET 0 0 0 100 0 0 0 50 8 2 0 0 0 (by decide) (by decide)

/-! ## Path construction in `search_directory` -/

/-- A text that fits in the buffer is stored whole. -/
theorem snprintf_of_le (size : Nat) (s : String) (h : strlen s ≤ size - 1) :
    snprintf size s = s := by
  apply String.ext
  simp only [snprintf]
  exact List.take_of_length_le h

/-- A path with a slash in it is not the string `.`. -/
theorem append_slash_ne_dot (a b : String) : a ++ "/" ++ b ≠ "." := by
  intro h
  have hd := congrArg String.data h
  simp only [String.data_append] at hd
  have hl := congrArg List.length hd
  simp only [List.length_append, List.length_cons, List.length_nil] at hl
  have ha : a.data = [] := List.eq_nil_of_length_eq_zero (by omega)
  have hb : b.data = [] := List.eq_nil_of_length_eq_zero (by omega)
  rw [ha, hb] at hd
  exact absurd hd (by decide)

/-- C18: when `full_path` holds the whole directory path (at most 4095 characters), then
for every entry that the name test and the two length checks let through, `new_full_path`
is exactly `full_path/entry` and `new_relative_path` is exactly the new relative path, both
of at most 4095 characters, and the `full_path` the recursive call builds from
`new_relative_path` is the parent's `new_full_path`. -/
theorem path_construction_exact (base_path relative_path d_name : String)
    (hfull : strlen (if relative_path = "." then base_path
      else base_path ++ "/" ++ relative_path) ≤ 4095)
    (hskip : entry_skipped (full_path_of base_path relative_path) relative_path d_name
      = false) :
    full_path_of base_path relative_path
        = (if relative_path = "." then base_path else base_path ++ "/" ++ relative_path)
      ∧ new_full_path_of (full_path_of base_path relative_path) d_name
        = full_path_of base_path relative_path ++ "/" ++ d_name
      ∧ strlen (full_path_of base_path relative_path ++ "/" ++ d_name) ≤ 4095
      ∧ new_relative_path_of relative_path d_name
        = (if relative_path = "." then d_name else relative_path ++ "/" ++ d_name)
      ∧ strlen (if relative_path = "." then d_name else relative_path ++ "/" ++ d_name) ≤ 4095
      ∧ full_path_of base_path (new_relative_path_of relative_path d_name)
        = new_full_path_of (full_path_of base_path relative_path) d_name := by
  have hslash : strlen "/" = 1 := rfl
  simp only [entry_skipped, Bool.or_eq_false_iff, decide_eq_false_iff_not, not_or, ge_iff_le,
    not_le, PATH_MAX_LEN] at hskip
  obtain ⟨⟨⟨hdot, _⟩, hlen1⟩, hlen2⟩ := hskip
  by_cases hrel : relative_path = "."
  · simp only [hrel, if_true] at hfull ⊢
    have hfp : full_path_of base_path "." = base_path := by
      simp only [full_path_of, if_true]
      exact snprintf_of_le _ _ (by simpa [PATH_MAX_LEN] using hfull)
    rw [hrel, hfp] at hlen1
    rw [hrel] at hlen2
    simp only [new_relative_len, if_true] at hlen2
    have hnr : new_relative_path_of "." d_name = d_name := by
      simp only [new_relative_path_of, if_true]
      exact snprintf_of_le _ _ (by simp only [PATH_MAX_LEN]; omega)
    have hlen3 : strlen (base_path ++ "/" ++ d_name) ≤ 4095 := by
      simp only [strlen, String.length_append] at hlen1 hslash ⊢
      omega
    have hnf : new_full_path_of base_path d_name = base_path ++ "/" ++ d_name := by
      simp only [new_full_path_of]
      exact snprintf_of_le _ _ (by simpa [PATH_MAX_LEN] using hlen3)
    rw [hfp, hnr, hnf]
    refine ⟨rfl, rfl, hlen3, rfl, by omega, ?_⟩
    simp only [full_path_of, hdot, if_false]
    exact snprintf_of_le _ _ (by simpa [PATH_MAX_LEN] using hlen3)
  · simp only [hrel, if_false] at hfull ⊢
    have hfp : full_path_of base_path relative_path = base_path ++ "/" ++ relative_path := by
      simp only [full_path_of, hrel, if_false]
      exact snprintf_of_le _ _ (by simpa [PATH_MAX_LEN] using hfull)
    rw [hfp] at hlen1
    simp only [new_relative_len, hrel, if_false] at hlen2
    have hlen4 : strlen (relative_path ++ "/" ++ d_name) ≤ 4095 := by
      simp only [strlen, String.length_append] at hlen2 hslash ⊢
      omega
    have hnr : new_relative_path_of relative_path d_name = relative_path ++ "/" ++ d_name := by
      simp only [new_relative_path_of, hrel, if_false]
      exact snprintf_of_le _ _ (by simpa [PATH_MAX_LEN] using hlen4)
    have hlen3 : strlen (base_path ++ "/" ++ relative_path ++ "/" ++ d_name) ≤ 4095 := by
      simp only [strlen, String.length_append] at hlen1 hslash ⊢
      omega
    have hnf : new_full_path_of (base_path ++ "/" ++ relative_path) d_name
        = base_path ++ "/" ++ relative_path ++ "/" ++ d_name := by
      simp only [new_full_path_of]
      exact snprintf_of_le _ _ (by simpa [PATH_MAX_LEN] using hlen3)
    rw [hfp, hnr, hnf]
    refine ⟨rfl, rfl, hlen3, rfl, hlen4, ?_⟩
    have hassoc : base_path ++ "/" ++ (relative_path ++ "/" ++ d_name)
        = base_path ++ "/" ++ relative_path ++ "/" ++ d_name := by
      simp only [String.append_assoc]
    simp only [full_path_of, append_slash_ne_dot, if_false, hassoc]
    exact snprintf_of_le _ _ (by simpa [PATH_MAX_LEN] using hlen3)

theorem path_construction_exact_witness :
    new_full_path_of (full_path_of "/srv/img" "2024") "a.png" = "/srv/img/2024" ++ "/" ++ "a.png"
      ∧ new_relative_path_of "2024" "a.png" = "2024" ++ "/" ++ "a.png"
      ∧ full_path_of "/srv/img" (new_relative_path_of "." "2024")
          = new_full_path_of (full_path_of "/srv/img" ".") "2024" :=
  have h1 := path_construction_exact "/srv/img" "2024" "a.png" (by decide) (by decide)
  have h2 := path_construction_exact "/srv/img" "." "2024" (by decide) (by decide)
  ⟨h1.2.1.trans (by rw [h1.1]; rfl), h1.2.2.2.1, h2.2.2.2.2.2⟩

/-! ## Lemmas on the CRC -/

theorem crc_index_table : ∀ i : Fin 256, crc_index (crc_table i.val >>> 24) = i.val := by
  decide

theorem crc_table_lt_fin : ∀ i : Fin 256, crc_table i.val < 2 ^ 32 := by
  decide

theorem flip_bit_ne : ∀ (j : Fin 8) (b : U8), flip_bit b j.val ≠ b := by decide

theorem shiftRight_xor (x y k : Nat) : (x ^^^ y) >>> k = (x >>> k) ^^^ (y >>> k) := by
  apply Nat.eq_of_testBit_eq
  intro i
  simp only [Nat.testBit_shiftRight, Nat.testBit_xor]

theorem and_255_lt (x : Nat) : x &&& 0xff < 256 :=
  Nat.lt_succ_of_le Nat.and_le_right

theorem and_255_eq_mod (x : Nat) : x &&& 0xff = x % 256 :=
  Nat.and_pow_two_sub_one_eq_mod x 8

theorem crc_table_lt (i : Nat) (hi : i < 256) : crc_table i < 2 ^ 32 :=
  crc_table_lt_fin ⟨i, hi⟩

/-- The high byte of a table entry determines its index. -/
theorem crc_table_top_inj (i j : Nat) (hi : i < 256) (hj : j < 256)
    (h : crc_table i >>> 24 = crc_table j >>> 24) : i = j := by
  have e1 := crc_index_table ⟨i, hi⟩
  have e2 := crc_index_table ⟨j, hj⟩
  simp only at e1 e2
  rw [← e1, ← e2, h]

/-- One update step keeps the register within 32 bits. -/
theorem crc_step_lt (c : Nat) (b : U8) (hc : c < 2 ^ 32) :
    crc_table ((c ^^^ b.val) &&& 0xff) ^^^ (c >>> 8) < 2 ^ 32 := by
  apply Nat.xor_lt_two_pow (crc_table_lt _ (and_255_lt _))
  rw [Nat.shiftRight_eq_div_pow]
  omega

/-- The high byte of the register after a step is the high byte of the table entry. -/
theorem crc_step_top (t c : Nat) (hc : c < 2 ^ 32) :
    (t ^^^ (c >>> 8)) >>> 24 = t >>> 24 := by
  rw [shiftRight_xor]
  have : c >>> 8 >>> 24 = 0 := by
    simp only [Nat.shiftRight_eq_div_pow]
    omega
  rw [this, Nat.xor_zero]

/-- Low bytes: xor with the same byte keeps two registers' low bytes apart or together. -/
theorem low_byte_xor_cancel (c d x : Nat)
    (h : (c ^^^ x) &&& 0xff = (d ^^^ x) &&& 0xff) : c % 256 = d % 256 := by
  rw [Nat.and_xor_distrib_right, Nat.and_xor_distrib_right, Nat.xor_left_inj] at h
  rwa [and_255_eq_mod, and_255_eq_mod] at h

theorem low_byte_xor_cancel_left (c x y : Nat)
    (h : (c ^^^ x) &&& 0xff = (c ^^^ y) &&& 0xff) : x % 256 = y % 256 := by
  rw [Nat.and_xor_distrib_right, Nat.and_xor_distrib_right, Nat.xor_right_inj] at h
  rwa [and_255_eq_mod, and_255_eq_mod] at h

/-- For a fixed byte, one update step is injective on 32-bit registers. -/
theorem crc_step_inj_register (c d : Nat) (b : U8) (hc : c < 2 ^ 32) (hd : d < 2 ^ 32)
    (h : crc_table ((c ^^^ b.val) &&& 0xff) ^^^ (c >>> 8)
      = crc_table ((d ^^^ b.val) &&& 0xff) ^^^ (d >>> 8)) : c = d := by
  have htop := congrArg (fun x => x >>> 24) h
  simp only [crc_step_top _ c hc, crc_step_top _ d hd] at htop
  have hidx := crc_table_top_inj _ _ (and_255_lt _) (and_255_lt _) htop
  rw [hidx, Nat.xor_right_inj] at h
  have hlow := low_byte_xor_cancel c d b.val hidx
  simp only [Nat.shiftRight_eq_div_pow] at h
  omega

/-- For a fixed register, one update step is injective in the byte. -/
theorem crc_step_inj_byte (c : Nat) (a b : U8)
    (h : crc_table ((c ^^^ a.val) &&& 0xff) ^^^ (c >>> 8)
      = crc_table ((c ^^^ b.val) &&& 0xff) ^^^ (c >>> 8)) : a = b := by
  rw [Nat.xor_left_inj] at h
  have hidx := crc_table_top_inj _ _ (and_255_lt _) (and_255_lt _) (congrArg (fun x => x >>> 24) h)
  have hlow := low_byte_xor_cancel_left c a.val b.val hidx
  have ha := a.is_lt
  have hb := b.is_lt
  apply Fin.ext
  omega

theorem update_crc_cons (c : Nat) (b : U8) (buf : List U8) :
    update_crc c (b :: buf)
      = update_crc (crc_table ((c ^^^ b.val) &&& 0xff) ^^^ (c >>> 8)) buf := rfl

theorem update_crc_append (c : Nat) (xs ys : List U8) :
    update_crc c (xs ++ ys) = update_crc (update_crc c xs) ys := by
  simp only [update_crc, List.foldl_append]

theorem update_crc_lt (buf : List U8) : ∀ c : Nat, c < 2 ^ 32 → update_crc c buf < 2 ^ 32 := by
  induction buf with
  | nil => intro c hc; exact hc
  | cons b rest ih =>
    intro c hc
    rw [update_crc_cons]
    exact ih _ (crc_step_lt c b hc)

/-- Feeding the same bytes to two different 32-bit registers leaves them different. -/
theorem update_crc_inj (buf : List U8) :
    ∀ c d : Nat, c < 2 ^ 32 → d < 2 ^ 32 → update_crc c buf = update_crc d buf → c = d := by
  induction buf with
  | nil => intro c d _ _ h; exact h
  | cons b rest ih =>
    intro c d hc hd h
    rw [update_crc_cons, update_crc_cons] at h
    exact crc_step_inj_register c d b hc hd (ih _ _ (crc_step_lt c b hc) (crc_step_lt d b hd) h)

/-- Changing one byte of the input changes the crc. -/
theorem crc_change_one_byte (pre post : List U8) (a b : U8) (hab : a ≠ b) :
    crc (pre ++ a :: post) ≠ crc (pre ++ b :: post) := by
  intro h
  simp only [crc, Nat.xor_left_inj, update_crc_append, update_crc_cons] at h
  have hpre : update_crc 0xffffffff pre < 2 ^ 32 := update_crc_lt pre _ (by decide)
  have hstep := update_crc_inj post _ _ (crc_step_lt _ a hpre) (crc_step_lt _ b hpre) h
  exact hab (crc_step_inj_byte _ a b hstep)

/-! ## The crc of a chunk -/

/-- As long as `length + 4` does not wrap, the buffer of `calculate_chunk_crc` holds
`type ‖ data` and the crc is taken over all of it. -/
theorem calculate_chunk_crc_no_wrap (c : chunk) (ht : c.type.length = 4)
    (hd : c.length = c.p_data.length) (hb : c.length + 4 < 2 ^ 32) :
    calculate_chunk_crc (some c) = crc (c.type ++ c.p_data) := by
  have h1 : c.type.take CHUNK_TYPE_SIZE = c.type := by
    rw [CHUNK_TYPE_SIZE, ← ht]; exact List.take_length c.type
  have h2 : c.p_data.take c.length = c.p_data := by
    rw [hd]; exact List.take_length c.p_data
  have h3 : (c.length + CHUNK_TYPE_SIZE) % 2 ^ 32 = (c.type ++ c.p_data).length := by
    rw [CHUNK_TYPE_SIZE, Nat.mod_eq_of_lt hb, List.length_append, ht, ← hd]
    omega
  simp only [calculate_chunk_crc, calculate_chunk_crc_alloc, Bool.not_true,
    Bool.false_eq_true, if_false, h1, h2, h3, List.take_length]

/-- With a length field of `2^32 - 4` the size `length + 4` wraps to 0, and the value is
the crc of no bytes at all, whatever the type and the data are. -/
theorem calculate_chunk_crc_wrap (t d : List U8) (x : Nat) :
    calculate_chunk_crc (some ⟨4294967292, t, d, x⟩) = 0 := by
  have h0 : (4294967292 + CHUNK_TYPE_SIZE) % 2 ^ 32 = 0 := by decide
  have hc : crc [] = 0 := by decide
  simp only [calculate_chunk_crc, calculate_chunk_crc_alloc, Bool.not_true,
    Bool.false_eq_true, if_false, h0, List.take_zero, hc]

/-- When the allocation fails `calculate_chunk_crc` returns 0. -/
theorem calculate_chunk_crc_alloc_false (inp : Option chunk) :
    calculate_chunk_crc_alloc false inp = 0 := by
  cases inp <;> rfl

/-- For a present chunk whose length is the size of its data and at most `2^32 - 5`,
`calculate_chunk_crc` is the crc of the 4 type bytes followed by the data bytes
(`length + 4` bytes, type first), `get_chunk_crc` is the stored crc, and the two agree
exactly when the crc of `type ‖ data` is the stored crc. -/
theorem chunk_crc_check (c : chunk) (ht : c.type.length = 4)
    (hd : c.length = c.p_data.length) (hb : c.length + 4 < 2 ^ 32) :
    calculate_chunk_crc (some c) = crc (c.type ++ c.p_data)
      ∧ (c.type ++ c.p_data).length = c.length + 4
      ∧ get_chunk_crc (some c) = c.crc
      ∧ (calculate_chunk_crc (some c) = get_chunk_crc (some c)
          ↔ crc (c.type ++ c.p_data) = c.crc) := by
  have hcalc := calculate_chunk_crc_no_wrap c ht hd hb
  refine ⟨hcalc, ?_, rfl, ?_⟩
  · simp only [List.length_append]; omega
  · rw [hcalc]; rfl

theorem chunk_crc_check_witness :
    (calculate_chunk_crc (some example_idat) = get_chunk_crc (some example_idat)
        ↔ crc (example_idat.type ++ example_idat.p_data) = example_idat.crc)
      ∧ calculate_chunk_crc (some example_idat) = get_chunk_crc (some example_idat)
      ∧ calculate_chunk_crc (some example_idat_bad_crc)
          ≠ get_chunk_crc (some example_idat_bad_crc) :=
  ⟨(chunk_crc_check example_idat (by decide) (by decide) (by decide)).2.2.2,
   (chunk_crc_check example_idat (by decide) (by decide) (by decide)).2.2.2.mpr (by decide),
   fun h => absurd
     ((chunk_crc_check example_idat_bad_crc (by decide) (by decide) (by decide)).2.2.2.mp h)
     (by decide)⟩

theorem wrap_tail_length : wrap_tail.length = 4294967291 := List.length_replicate _ _

/-- C15, the code at a failing input: for the two chunks of length `2^32 - 4` whose data
are all zero, and all zero after a first byte 1, `calculate_chunk_crc` returns the crc of
no bytes, 0, both times, although the crc of `type ‖ data` differs between the two; so
for at least one of them the value is not the crc of `type ‖ data`. -/
theorem calculate_chunk_crc_length_wraps :
    example_wrap_zero.length = example_wrap_zero.p_data.length
      ∧ example_wrap_one.length = example_wrap_one.p_data.length
      ∧ calculate_chunk_crc (some example_wrap_zero) = 0
      ∧ calculate_chunk_crc (some example_wrap_one) = 0
      ∧ crc (example_wrap_zero.type ++ example_wrap_zero.p_data)
          ≠ crc (example_wrap_one.type ++ example_wrap_one.p_data)
      ∧ ¬ (calculate_chunk_crc (some example_wrap_zero)
              = crc (example_wrap_zero.type ++ example_wrap_zero.p_data)
            ∧ calculate_chunk_crc (some example_wrap_one)
              = crc (example_wrap_one.type ++ example_wrap_one.p_data)) := by
  have hz : calculate_chunk_crc (some example_wrap_zero) = 0 :=
    calculate_chunk_crc_wrap IHDR_tag (0 :: wrap_tail) _
  have ho : calculate_chunk_crc (some example_wrap_one) = 0 :=
    calculate_chunk_crc_wrap IHDR_tag (1 :: wrap_tail) _
  have hne : crc (IHDR_tag ++ 0 :: wrap_tail) ≠ crc (IHDR_tag ++ 1 :: wrap_tail) :=
    crc_change_one_byte IHDR_tag wrap_tail 0 1 (by decide)
  have hlen0 : 4294967292 = (0 :: wrap_tail).length := by
    rw [List.length_cons, wrap_tail_length]
  have hlen1 : 4294967292 = (1 :: wrap_tail).length := by
    rw [List.length_cons, wrap_tail_length]
  refine ⟨hlen0, hlen1, hz, ho, hne, ?_⟩
  rintro ⟨h1, h2⟩
  exact hne (h1.symm.trans (hz.trans (ho.symm.trans h2)))

/-- Flipping a bit of a byte gives a different byte. -/
theorem flip_bit_ne_self (b : U8) (j : Nat) (hj : j < 8) : flip_bit b j ≠ b :=
  flip_bit_ne ⟨j, hj⟩ b

/-- For a chunk whose length is at most `2^32 - 5` and whose stored crc is the CRC-32 of
`type ‖ data`, flipping any single bit of the data changes the value
`calculate_chunk_crc` computes, so the check against the unchanged stored crc fails. -/
theorem crc_detects_single_bit_flip (c : chunk) (k j : Nat) (ht : c.type.length = 4)
    (hd : c.length = c.p_data.length) (hb : c.length + 4 < 2 ^ 32)
    (hcrc : c.crc = crc (c.type ++ c.p_data))
    (hk : k < c.p_data.length) (hj : j < 8) :
    calculate_chunk_crc (some { c with p_data := flip_data_bit c.p_data k j })
        ≠ calculate_chunk_crc (some c)
      ∧ calculate_chunk_crc (some { c with p_data := flip_data_bit c.p_data k j })
        ≠ get_chunk_crc (some { c with p_data := flip_data_bit c.p_data k j }) := by
  have hflen : (flip_data_bit c.p_data k j).length = c.p_data.length := by
    simp only [flip_data_bit, List.length_set]
  have hsplit : c.p_data = c.p_data.take k ++ c.p_data[k] :: c.p_data.drop (k + 1) := by
    rw [← List.drop_eq_getElem_cons hk, List.take_append_drop]
  have hflip : flip_data_bit c.p_data k j
      = c.p_data.take k ++ flip_bit c.p_data[k] j :: c.p_data.drop (k + 1) := by
    simp only [flip_data_bit, List.set_eq_take_append_cons_drop, hk, if_true,
      List.getD_eq_getElem _ _ hk]
  have hold : calculate_chunk_crc (some c)
      = crc ((c.type ++ c.p_data.take k) ++ c.p_data[k] :: c.p_data.drop (k + 1)) := by
    rw [calculate_chunk_crc_no_wrap c ht hd hb, List.append_assoc, ← hsplit]
  have hnew : calculate_chunk_crc (some { c with p_data := flip_data_bit c.p_data k j })
      = crc ((c.type ++ c.p_data.take k)
          ++ flip_bit c.p_data[k] j :: c.p_data.drop (k + 1)) := by
    have h := calculate_chunk_crc_no_wrap { c with p_data := flip_data_bit c.p_data k j } ht
      (hd.trans hflen.symm) hb
    rw [h, List.append_assoc]
    show crc (c.type ++ flip_data_bit c.p_data k j) = _
    rw [hflip]
  have hne : calculate_chunk_crc (some { c with p_data := flip_data_bit c.p_data k j })
      ≠ calculate_chunk_crc (some c) := by
    rw [hold, hnew]
    exact crc_change_one_byte _ _ _ _ (flip_bit_ne_self _ j hj)
  refine ⟨hne, ?_⟩
  have hstored : get_chunk_crc (some { c with p_data := flip_data_bit c.p_data k j })
      = calculate_chunk_crc (some c) := by
    rw [calculate_chunk_crc_no_wrap c ht hd hb]
    exact hcrc
  rw [hstored]
  exact hne

theorem crc_detects_single_bit_flip_witness :
    calculate_chunk_crc (some { example_ihdr with p_data := flip_data_bit example_ihdr.p_data 3 6 })
        ≠ calculate_chunk_crc (some example_ihdr)
      ∧ calculate_chunk_crc
          (some { example_ihdr with p_data := flip_data_bit example_ihdr.p_data 3 6 })
        ≠ get_chunk_crc
          (some { example_ihdr with p_data := flip_data_bit example_ihdr.p_data 3 6 }) :=
  crc_detects_single_bit_flip example_ihdr 3 6 (by decide) (by decide) (by decide) (by decide)
    (by decide) (by decide)

/-- C16, the code at a failing input: the chunk of length `2^32 - 4` with all-zero data
stores the CRC-32 of its `type ‖ data`; flipping bit 0 of its first data byte gives the
data of the second chunk, which differ from it, and `calculate_chunk_crc` returns the same
value, 0, before and after the flip. -/
theorem calculate_chunk_crc_blind_to_bit_flip :
    example_wrap_zero.crc = crc (example_wrap_zero.type ++ example_wrap_zero.p_data)
      ∧ example_wrap_zero.length = example_wrap_zero.p_data.length
      ∧ flip_data_bit example_wrap_zero.p_data 0 0 = example_wrap_one.p_data
      ∧ flip_data_bit example_wrap_zero.p_data 0 0 ≠ example_wrap_zero.p_data
      ∧ calculate_chunk_crc
          (some { example_wrap_zero with p_data := flip_data_bit example_wrap_zero.p_data 0 0 })
          = calculate_chunk_crc (some example_wrap_zero) := by
  have hlen0 : 4294967292 = (0 :: wrap_tail).length := by
    rw [List.length_cons, wrap_tail_length]
  have hflip : flip_data_bit (0 :: wrap_tail) 0 0 = 1 :: wrap_tail := rfl
  have hne : flip_data_bit (0 :: wrap_tail) 0 0 ≠ 0 :: wrap_tail := by
    rw [hflip]
    intro h
    exact absurd (List.head_eq_of_cons_eq h) (by decide)
  have hz : calculate_chunk_crc (some example_wrap_zero) = 0 :=
    calculate_chunk_crc_wrap IHDR_tag (0 :: wrap_tail) _
  have hf : calculate_chunk_crc
      (some { example_wrap_zero with p_data := flip_data_bit example_wrap_zero.p_data 0 0 })
      = 0 :=
    calculate_chunk_crc_wrap IHDR_tag (flip_data_bit (0 :: wrap_tail) 0 0) _
  have hcrc : example_wrap_zero.crc
      = crc (example_wrap_zero.type ++ example_wrap_zero.p_data) := by
    simp only [example_wrap_zero]
  exact ⟨hcrc, hlen0, hflip, hne, hf.trans hz.symm⟩

/-! ## The scanner's counter -/

/-- C17, the code at a failing input: in a directory with exactly one PNG file the scanner
prints one path and leaves the counter at 2; and when `realpath` fails on that file it
prints nothing and leaves the counter at 1. -/
theorem search_directory_counts_twice :
    search_directory "img" "." example_dir ⟨0, []⟩ = ⟨2, ["/srv/img/a.png"]⟩
      ∧ search_directory "img" "." (.directory (some (.cons "a.png" example_png_file .nil)))
          ⟨0, []⟩ = ⟨2, ["/srv/img/a.png"]⟩
      ∧ search_directory "img" "."
          (.directory (some (.cons "a.png" example_png_no_realpath .nil))) ⟨0, []⟩
          = ⟨1, []⟩ := by
  refine ⟨by decide, by decide, by decide⟩

end Lab1
